import Mathlib

/-!
Verification of the bulk notification dispatch and logging subsystem of the
ai-data-capture-portal-api repository.

The Lean definitions below are a shallow embedding of the Python sources:

* `app/services/notifications/sms/termii.py`     (`TermiiSMSProvider`)
* `app/services/notifications/whatsapp/termii.py` (`TermiiWhatsAppProvider`)
* `app/services/notifications/email/termii.py`   (`TermiiEmailProvider`)
* `app/services/notifications/service.py`        (`NotificationService`)
* `app/services/notifications/template_renderer.py` (`TemplateRenderer`)

Conventions used throughout:

* Python `Optional[T]` becomes `Option T`; Python truthiness of an optional
  integer (`x or d`, where `0` is falsy) is modelled by `pyOrNat`.
* Timestamps (`datetime.utcnow()`) are modelled as an abstract `Nat` value
  `now` passed explicitly; only null/non-null and relative identity matter
  to the verified properties.
* Outbound HTTP carrier interaction is modelled by an explicit
  `CarrierReply` datum describing what the carrier did (HTTP status +
  response code + message fields, or a timeout, or another exception);
  each embedded adapter function consumes such a reply.
* A coroutine result collected by `asyncio.gather(..., return_exceptions=True)`
  is `Except String α`: `.error e` is a task that raised exception `e`,
  `.ok a` a task that returned `a`.
* Database persistence is modelled as appending to an explicit list of
  `NotificationLog` rows; the cost/provider_response/meta string fields,
  which no verified property mentions, are omitted from the row model
  (the float-parsing cost accumulator is not modelled).
-/

namespace Notifications

/-- Python's `x or d` for `x : Optional[int]`: both `None` and `0` are falsy.
Used for the service's `result.successful_count or (...)` expressions. -/
def pyOrNat (x : Option Nat) (d : Nat) : Nat :=
  match x with
  | none => d
  | some n => if n = 0 then d else n

/-- Python's `x or d` for an optional timestamp: a `datetime` object is always
truthy, so only `None` falls through to the default.
Models `result.sent_at or datetime.utcnow()` in `service.py`. -/
def pyOrTime (x : Option Nat) (d : Nat) : Nat :=
  match x with
  | none => d
  | some t => t

/-- Python's `if result.message_id:` / `if result.error:` on an optional
string: `None` and the empty string are both falsy. -/
def pyStrTruthy (x : Option String) : Bool :=
  match x with
  | none => false
  | some s => s ≠ ""

/-- `NotificationStatus` constants from `app/constants.py`. -/
def statusSent : String := "sent"

/-- `NotificationStatus.FAILED` from `app/constants.py`. -/
def statusFailed : String := "failed"

/-- The normalized adapter result, from `NotificationResponse` in
`app/services/notifications/base.py` (cost / provider_response / metadata
fields omitted; no verified property reads them). -/
structure NotificationResponse where
  success : Bool
  recipient : String
  message_id : Option String := none
  provider : String
  status : String
  error : Option String := none
  sent_at : Option Nat := none
  total_recipients : Option Nat := none
  successful_count : Option Nat := none
  failed_count : Option Nat := none
  deriving Repr, DecidableEq

/-- What the carrier did on one HTTP call, as observed by the adapter's
`try: ... response = await client.post(...)` block:
either an HTTP response (status code, Termii `code` field, optional
`message_id`, `message` error text), or a `httpx.TimeoutException`,
or some other exception raised inside the block. -/
inductive CarrierReply where
  | http (statusCode : Nat) (code : String) (messageId : Option String)
      (errMessage : String)
  | timeout
  | exc (e : String)
  deriving Repr, DecidableEq

/-- The success condition every Termii adapter path applies to a carrier
reply: `response.status_code == 200 and response_data.get("code") == "ok"`
(`sms/termii.py` line 61/221, `whatsapp/termii.py` line 72/158,
`email/termii.py` line 76); a timeout or any other exception is never a
success. -/
def carrierAccepted : CarrierReply → Prop
  | .http statusCode code _ _ => statusCode = 200 ∧ code = "ok"
  | .timeout => False
  | .exc _ => False

instance (reply : CarrierReply) : Decidable (carrierAccepted reply) := by
  cases reply <;> unfold carrierAccepted <;> infer_instance

/-- Termii bulk batch size: `batch_size = 100` in
`TermiiSMSProvider.send_bulk_sms` (`sms/termii.py` line 123). -/
def batchSize : Nat := 100

/-- The chunking in `sms/termii.py` line 127:
`batches = [to[i:i + batch_size] for i in range(0, len(to), batch_size)]`. -/
def smsBatches {α : Type} (recips : List α) : List (List α) :=
  match recips with
  | [] => []
  | a :: rest =>
    (a :: rest).take batchSize :: smsBatches ((a :: rest).drop batchSize)
  termination_by recips.length
  decreasing_by
    simp only [List.length_drop, List.length_cons, batchSize]
    omega

/-- `TermiiSMSProvider._send_single_batch` (`sms/termii.py` lines 190-279):
maps one chunk's carrier reply to a per-chunk `NotificationResponse`.
Success iff HTTP 200 with Termii code `"ok"`; every failure mode (non-ok
reply, timeout, exception) is caught and converted to a failed response
with `failed_count = len(recipients)`. -/
def sendSingleBatch (recipients : List String) (reply : CarrierReply)
    (now : Nat) : NotificationResponse :=
  match reply with
  | .http statusCode code messageId errMessage =>
    if statusCode = 200 ∧ code = "ok" then
      { success := true
        recipient := "batch"
        message_id := messageId
        provider := "termii"
        status := statusSent
        sent_at := some now
        total_recipients := some recipients.length
        successful_count := some recipients.length
        failed_count := some 0 }
    else
      { success := false
        recipient := "batch"
        provider := "termii"
        status := statusFailed
        error := some errMessage
        total_recipients := some recipients.length
        successful_count := some 0
        failed_count := some recipients.length }
  | .timeout =>
      { success := false
        recipient := "batch"
        provider := "termii"
        status := statusFailed
        error := some "Request timeout"
        total_recipients := some recipients.length
        successful_count := some 0
        failed_count := some recipients.length }
  | .exc e =>
      { success := false
        recipient := "batch"
        provider := "termii"
        status := statusFailed
        error := some e
        total_recipients := some recipients.length
        successful_count := some 0
        failed_count := some recipients.length }

/-- The running aggregation state of the result loop in
`TermiiSMSProvider.send_bulk_sms` (`sms/termii.py` lines 139-164). -/
structure BulkAgg where
  totalSuccessful : Nat := 0
  totalFailed : Nat := 0
  allMessageIds : List String := []
  errors : List String := []
  deriving Repr, DecidableEq

/-- One iteration of the aggregation loop (`sms/termii.py` lines 146-164).
An exception result appends its text to `errors` and adds the constant
`batch_size` to `total_failed` (`total_failed += batch_size  # Assume all
failed`); a returned response adds its `successful_count or 0` when
`result.success` and otherwise its `failed_count or 0`. -/
def aggStep (acc : BulkAgg) (result : Except String NotificationResponse) :
    BulkAgg :=
  match result with
  | .error e =>
    { acc with
      errors := acc.errors ++ [e]
      totalFailed := acc.totalFailed + batchSize }
  | .ok r =>
    if r.success then
      { acc with
        totalSuccessful := acc.totalSuccessful + (r.successful_count.getD 0)
        allMessageIds :=
          acc.allMessageIds ++
            (if pyStrTruthy r.message_id then [r.message_id.getD ""] else []) }
    else
      { acc with
        totalFailed := acc.totalFailed + (r.failed_count.getD 0)
        errors :=
          acc.errors ++
            (if pyStrTruthy r.error then [r.error.getD ""] else []) }

/-- The whole aggregation loop over the gathered chunk results. -/
def aggregateBatches (batchResults : List (Except String NotificationResponse)) :
    BulkAgg :=
  batchResults.foldl aggStep {}

/-- `TermiiSMSProvider.send_bulk_sms` (`sms/termii.py` lines 108-188),
with the gathered per-chunk results supplied explicitly: merges them into
one `NotificationResponse`.  `overall_success = total_successful > 0 and
total_failed == 0`; status is `SENT` or `FAILED` accordingly. -/
def sendBulkSMS (recips : List String)
    (batchResults : List (Except String NotificationResponse))
    (now : Nat) : NotificationResponse :=
  let agg := aggregateBatches batchResults
  let overallSuccess := agg.totalSuccessful > 0 ∧ agg.totalFailed = 0
  { success := overallSuccess
    recipient := "bulk"
    message_id :=
      if agg.allMessageIds ≠ [] then
        some (String.intercalate "," agg.allMessageIds)
      else none
    provider := "termii"
    status := if overallSuccess then statusSent else statusFailed
    sent_at := if overallSuccess then some now else none
    total_recipients := some recips.length
    successful_count := some agg.totalSuccessful
    failed_count := some agg.totalFailed
    error :=
      if agg.errors ≠ [] then some (String.intercalate "; " agg.errors)
      else none }

/-- Single-recipient path of `TermiiSMSProvider.send_sms`
(`sms/termii.py` lines 39-106): one carrier call for `to[0]`; the bulk
counter fields stay `None`. -/
def sendSingleSMS (recipient : String) (reply : CarrierReply) (now : Nat) :
    NotificationResponse :=
  match reply with
  | .http statusCode code messageId errMessage =>
    if statusCode = 200 ∧ code = "ok" then
      { success := true
        recipient := recipient
        message_id := messageId
        provider := "termii"
        status := statusSent
        sent_at := some now }
    else
      { success := false
        recipient := recipient
        provider := "termii"
        status := statusFailed
        error := some errMessage }
  | .timeout =>
      { success := false
        recipient := recipient
        provider := "termii"
        status := statusFailed
        error := some "Request timeout" }
  | .exc e =>
      { success := false
        recipient := recipient
        provider := "termii"
        status := statusFailed
        error := some e }

/-- The recipients actually submitted to the carrier by
`TermiiWhatsAppProvider.send_bulk_whatsapp` (`whatsapp/termii.py` lines
130-132): `all_recipients = to[:batch_size]` — a single slice of the first
100 recipients, with no loop over the remainder. -/
def whatsappBulkRecipients (recips : List String) : List String :=
  recips.take batchSize

/-- `TermiiWhatsAppProvider.send_bulk_whatsapp` (`whatsapp/termii.py` lines
122-218): one carrier call carrying `whatsappBulkRecipients recips`; all
counter fields are computed from `len(all_recipients)`, never from
`len(to)`. -/
def sendBulkWhatsapp (recips : List String) (reply : CarrierReply)
    (now : Nat) : NotificationResponse :=
  let allRecipients := whatsappBulkRecipients recips
  match reply with
  | .http statusCode code messageId errMessage =>
    if statusCode = 200 ∧ code = "ok" then
      { success := true
        recipient := "bulk"
        message_id := messageId
        provider := "termii"
        status := statusSent
        sent_at := some now
        total_recipients := some allRecipients.length
        successful_count := some allRecipients.length
        failed_count := some 0 }
    else
      { success := false
        recipient := "bulk"
        provider := "termii"
        status := statusFailed
        error := some errMessage
        total_recipients := some allRecipients.length
        successful_count := some 0
        failed_count := some allRecipients.length }
  | .timeout =>
      { success := false
        recipient := "bulk"
        provider := "termii"
        status := statusFailed
        error := some "Request timeout"
        total_recipients := some allRecipients.length
        successful_count := some 0
        failed_count := some allRecipients.length }
  | .exc e =>
      { success := false
        recipient := "bulk"
        provider := "termii"
        status := statusFailed
        error := some e
        total_recipients := some allRecipients.length
        successful_count := some 0
        failed_count := some allRecipients.length }

/-- Single-recipient path of `TermiiWhatsAppProvider.send_whatsapp`
(`whatsapp/termii.py` lines 46-120): one carrier call for `to[0]`; the
bulk counter fields stay `None` (the media/metadata strings, which no
verified property reads, are omitted). -/
def sendSingleWhatsapp (recipient : String) (reply : CarrierReply)
    (now : Nat) : NotificationResponse :=
  match reply with
  | .http statusCode code messageId errMessage =>
    if statusCode = 200 ∧ code = "ok" then
      { success := true
        recipient := recipient
        message_id := messageId
        provider := "termii"
        status := statusSent
        sent_at := some now }
    else
      { success := false
        recipient := recipient
        provider := "termii"
        status := statusFailed
        error := some errMessage }
  | .timeout =>
      { success := false
        recipient := recipient
        provider := "termii"
        status := statusFailed
        error := some "Request timeout" }
  | .exc e =>
      { success := false
        recipient := recipient
        provider := "termii"
        status := statusFailed
        error := some e }

/-! ## Notification service (`app/services/notifications/service.py`) -/

/-- The persisted `NotificationLog` row (`app/models.py`), restricted to the
fields the verified properties read.  `subject`, cost, provider-response and
attribution fields are omitted. -/
structure NotificationLog where
  batch_id : String
  type : String
  channel : String
  message : String
  total_recipients : Nat
  status : String
  successful_count : Nat
  failed_count : Nat
  error_message : Option String
  sent_at : Option Nat
  completed_at : Option Nat
  deriving Repr, DecidableEq

/-- The `BatchNotificationResult` returned to the caller
(`app/schemas.py` lines 263-272), minus the cost/provider fields. -/
structure BatchNotificationResult where
  status : String
  batch_id : String
  total_recipients : Nat
  successful_count : Nat
  failed_count : Nat
  message_id : Option String
  message : String
  deriving Repr, DecidableEq

/-- `db.add(log_entry); db.commit()`: persisting one row appends it to the
table (the log table is append-only; no row is ever updated). -/
def persistLog (rows : List NotificationLog) (row : NotificationLog) :
    List NotificationLog :=
  rows ++ [row]

/-- `NotificationService.send_sms` (`service.py` lines 186-291), given the
adapter call's outcome (`.ok result` when `self.sms_provider.send_sms`
returned, `.error e` when it raised).  Returns the single `NotificationLog`
row the invocation persists together with the structured result handed to
the caller; both the success branch and the `except Exception` branch build
and commit exactly one row and return normally. -/
def sendSMSService (batchId : String)
    (recips : List String) (message : String) (channel : String) (now : Nat)
    (outcome : Except String NotificationResponse) :
    NotificationLog × BatchNotificationResult :=
  match outcome with
  | .ok result =>
    let logEntry : NotificationLog :=
      { batch_id := batchId
        type := "sms"
        channel := channel
        message := message
        total_recipients := pyOrNat result.total_recipients recips.length
        status := result.status
        successful_count :=
          pyOrNat result.successful_count
            (if result.success then recips.length else 0)
        failed_count :=
          pyOrNat result.failed_count
            (if result.success then 0 else recips.length)
        error_message := result.error
        sent_at := some (pyOrTime result.sent_at now)
        completed_at := some now }
    (logEntry,
      { status := if result.success then "success" else "failed"
        batch_id := batchId
        total_recipients := pyOrNat result.total_recipients recips.length
        successful_count :=
          pyOrNat result.successful_count
            (if result.success then recips.length else 0)
        failed_count :=
          pyOrNat result.failed_count
            (if result.success then 0 else recips.length)
        message_id := result.message_id
        message := "SMS send summary" })
  | .error e =>
    let logEntry : NotificationLog :=
      { batch_id := batchId
        type := "sms"
        channel := channel
        message := message
        total_recipients := recips.length
        status := "failed"
        successful_count := 0
        failed_count := recips.length
        error_message := some e
        sent_at := none
        completed_at := some now }
    (logEntry,
      { status := "failed"
        batch_id := batchId
        total_recipients := recips.length
        successful_count := 0
        failed_count := recips.length
        message_id := none
        message := "Failed to send SMS: " ++ e })

/-- `NotificationService.send_whatsapp` (`service.py` lines 293-410), after
the `message`/`media` validation branch, given the adapter call's outcome.
Structurally identical to `sendSMSService` but with `type = channel =
"whatsapp"`. -/
def sendWhatsappService (batchId : String)
    (recips : List String) (message : String) (now : Nat)
    (outcome : Except String NotificationResponse) :
    NotificationLog × BatchNotificationResult :=
  match outcome with
  | .ok result =>
    let logEntry : NotificationLog :=
      { batch_id := batchId
        type := "whatsapp"
        channel := "whatsapp"
        message := message
        total_recipients := pyOrNat result.total_recipients recips.length
        status := result.status
        successful_count :=
          pyOrNat result.successful_count
            (if result.success then recips.length else 0)
        failed_count :=
          pyOrNat result.failed_count
            (if result.success then 0 else recips.length)
        error_message := result.error
        sent_at := some (pyOrTime result.sent_at now)
        completed_at := some now }
    (logEntry,
      { status := if result.success then "success" else "failed"
        batch_id := batchId
        total_recipients := pyOrNat result.total_recipients recips.length
        successful_count :=
          pyOrNat result.successful_count
            (if result.success then recips.length else 0)
        failed_count :=
          pyOrNat result.failed_count
            (if result.success then 0 else recips.length)
        message_id := result.message_id
        message := "WhatsApp send summary" })
  | .error e =>
    let logEntry : NotificationLog :=
      { batch_id := batchId
        type := "whatsapp"
        channel := "whatsapp"
        message := message
        total_recipients := recips.length
        status := "failed"
        successful_count := 0
        failed_count := recips.length
        error_message := some e
        sent_at := none
        completed_at := some now }
    (logEntry,
      { status := "failed"
        batch_id := batchId
        total_recipients := recips.length
        successful_count := 0
        failed_count := recips.length
        message_id := none
        message := "Failed to send WhatsApp: " ++ e })

/-- `successful_count` in `NotificationService.send_email` (`service.py`
line 124): the tally of gathered per-recipient results that are
`NotificationResponse` instances (not exceptions) with `success` true. -/
def emailSuccessfulCount (results : List (Except String NotificationResponse)) :
    Nat :=
  (results.filter fun r =>
    match r with
    | .ok resp => resp.success
    | .error _ => false).length

/-- The `NotificationLog` row built by `NotificationService.send_email`
(`service.py` lines 130-153) from the gathered per-recipient results:
`status` is `"sent"` iff at least one succeeded, `failed_count` is the
remainder, `sent_at` is set only when at least one succeeded, and
`error_message` is `"All emails failed"` when none did. -/
def sendEmailLog (batchId : String) (recips : List String)
    (results : List (Except String NotificationResponse)) (now : Nat) :
    NotificationLog :=
  let successfulCount := emailSuccessfulCount results
  let failedCount := results.length - successfulCount
  { batch_id := batchId
    type := "email"
    channel := "email"
    message := "Template"
    total_recipients := recips.length
    status := if successfulCount > 0 then "sent" else "failed"
    successful_count := successfulCount
    failed_count := failedCount
    error_message := if successfulCount > 0 then none else some "All emails failed"
    sent_at := if successfulCount > 0 then some now else none
    completed_at := some now }

/-- The full bulk-SMS adapter call `TermiiSMSProvider.send_bulk_sms` with the
carrier's per-chunk behaviour supplied: one task per chunk of `smsBatches
recips` (`sms/termii.py` lines 131-137), gathered with
`return_exceptions=True` (`.error e` models a task whose exception escaped
`_send_single_batch`, e.g. a cancellation), then merged. -/
def termiiSendBulkSMS (recips : List String)
    (outcomes : List (Except String CarrierReply)) (now : Nat) :
    NotificationResponse :=
  sendBulkSMS recips
    (((smsBatches recips).zip outcomes).map fun bo =>
      bo.2.map fun rep => sendSingleBatch bo.1 rep now) now

/-! ## Python-dict model for `send_email`'s `variables` handling -/

/-- `k in d` for the insertion-ordered dict model. -/
def dictContains (d : List (String × String)) (k : String) : Bool :=
  d.any fun kv => kv.1 = k

/-- `d.get(k)` / `d[k]`: the value of the first (unique, in a real dict)
binding of `k`. -/
def dictGet (d : List (String × String)) (k : String) : Option String :=
  (d.find? fun kv => kv.1 = k).map fun kv => kv.2

/-- `d[k] = v`: update the binding in place when `k` is present, append a
new binding otherwise (Python dicts preserve insertion order). -/
def dictSet (d : List (String × String)) (k v : String) :
    List (String × String) :=
  if dictContains d k then
    d.map fun kv => if kv.1 = k then (k, v) else kv
  else d ++ [(k, v)]

/-- First auto-fill statement of `NotificationService.send_email`
(`service.py` lines 72-74): `if "telegram_link" not in variables and
settings.TELEGRAM_LINK: variables["telegram_link"] = settings.TELEGRAM_LINK`. -/
def autofillTelegram (vars0 : List (String × String))
    (telegramLink : Option String) : List (String × String) :=
  if ¬ dictContains vars0 "telegram_link" ∧ pyStrTruthy telegramLink then
    dictSet vars0 "telegram_link" (telegramLink.getD "")
  else vars0

/-- Second auto-fill statement (`service.py` lines 76-78):
`if "current_year" not in variables: variables["current_year"] = str(...)`. -/
def autofillYear (v1 : List (String × String)) (year : String) :
    List (String × String) :=
  if ¬ dictContains v1 "current_year" then dictSet v1 "current_year" year
  else v1

/-- The in-place auto-fill of the caller's `variables` dict in
`NotificationService.send_email` (`service.py` lines 72-78): the two
statements run in sequence on the same dictionary, which holds exactly
this value after the call. -/
def autofillVariables (vars0 : List (String × String))
    (telegramLink : Option String) (year : String) :
    List (String × String) :=
  autofillYear (autofillTelegram vars0 telegramLink) year

/-- The per-recipient copy built inside the fan-out loop of
`NotificationService.send_email` (`service.py` lines 105-111):
`recipient_vars = variables.copy()`, then `convert_name` is added to the
copy (from the `email_to_name` lookup, defaulting to `"New Believer"`)
only when `convert_name` is absent from the shared `variables` dict. -/
def recipientVariables (vars0 : List (String × String))
    (emailToName : List (String × String)) (recipient : String) :
    List (String × String) :=
  if ¬ dictContains vars0 "convert_name" then
    dictSet vars0 "convert_name"
      ((dictGet emailToName recipient).getD "New Believer")
  else vars0

/-! ## Cooperative-concurrency model for the `send_email` fan-out

`NotificationService.send_email` (`service.py` lines 103-121) builds one
`email_provider.send_email` task per recipient and passes all of them to a
single `asyncio.gather(*tasks, return_exceptions=True)`.  Each task's first
suspension point is its outbound carrier HTTP call.  There is no semaphore,
queue, or other concurrency gate anywhere in `send_email` (nor elsewhere in
the repository), which the model records as `emailFanoutGate = none`.

A schedule of the fan-out is a list of events: `start i` (task `i` issues
its carrier call, which is then in flight) and `finish i` (task `i`'s call
completes).  A schedule is admissible for `numTasks` tasks under an
optional gate capacity when each task starts at most once, only spawned
tasks start, completions never outnumber starts, and — when a gate is
present — the number of in-flight calls never exceeds the capacity.
Because the carrier's response times are outside the program's control,
every admissible schedule can occur. -/

/-- One scheduler event of the per-recipient fan-out. -/
inductive FanoutEvent where
  | start (i : Nat)
  | finish (i : Nat)
  deriving Repr, DecidableEq

/-- Indices of tasks started during the schedule, in order. -/
def startsOf (tr : List FanoutEvent) : List Nat :=
  tr.filterMap fun e =>
    match e with
    | .start i => some i
    | .finish _ => none

/-- Indices of tasks finished during the schedule, in order. -/
def finishesOf (tr : List FanoutEvent) : List Nat :=
  tr.filterMap fun e =>
    match e with
    | .start _ => none
    | .finish i => some i

/-- Number of carrier calls in flight after the events `tr`. -/
def inFlightAfter (tr : List FanoutEvent) : Nat :=
  (startsOf tr).length - (finishesOf tr).length

/-- Admissibility of a schedule for `numTasks` gathered tasks under an
optional concurrency-gate capacity. -/
def AdmissibleSchedule (numTasks : Nat) (gate : Option Nat)
    (tr : List FanoutEvent) : Prop :=
  (startsOf tr).Nodup ∧
  (∀ i ∈ startsOf tr, i < numTasks) ∧
  (∀ pre ∈ tr.inits, (finishesOf pre).length ≤ (startsOf pre).length) ∧
  (∀ pre ∈ tr.inits, ∀ c, gate = some c → inFlightAfter pre ≤ c)

instance (numTasks : Nat) (gate : Option Nat) (tr : List FanoutEvent) :
    Decidable (AdmissibleSchedule numTasks gate tr) := by
  unfold AdmissibleSchedule; infer_instance

/-- The concurrency gate of the `send_email` fan-out: the code has none
(`service.py` lines 103-121 contain no semaphore or bounded queue, and the
tasks are handed to one `asyncio.gather` call). -/
def emailFanoutGate : Option Nat := none

/-! ## Template renderer (`app/services/notifications/template_renderer.py`)

Strings are handled as `List Char` (`String.data`) so the substitution and
scanning functions are structurally recursive and fully executable. -/

/-- The scanning loop of Python's `str.replace(pat, repl)`, made
structurally recursive on a fuel counter (any fuel at least the length of
the string gives the scan's value; the `0, s => s` arm is never reached
from `replaceAll`): scan left to right; on a match, emit the replacement
and continue after the matched occurrence (the replacement itself is not
rescanned). -/
def replaceAllGo (pat repl : List Char) : Nat → List Char → List Char
  | _, [] => []
  | 0, s => s
  | fuel + 1, c :: rest =>
    if pat ≠ [] ∧ pat.isPrefixOf (c :: rest) then
      repl ++ replaceAllGo pat repl fuel ((c :: rest).drop pat.length)
    else
      c :: replaceAllGo pat repl fuel rest

/-- Python's `str.replace(pat, repl)` for a non-empty pattern. -/
def replaceAll (pat repl : List Char) (s : List Char) : List Char :=
  replaceAllGo pat repl s.length s

/-- The literal pattern `"{{" + key + "}}"` built by
`TemplateRenderer.render` (`template_renderer.py` line 36). -/
def placeholderPat (k : List Char) : List Char :=
  '{' :: '{' :: (k ++ ['}', '}'])

/-- `TemplateRenderer.render` (`template_renderer.py` lines 12-39): an empty
template renders to `""`; otherwise each `(key, value)` binding of the
variables dict, in insertion order, replaces every occurrence of
`"{{key}}"` in the running result with the value. -/
def render (template : List Char) (vars : List (List Char × List Char)) :
    List Char :=
  if template = [] then []
  else vars.foldl (fun acc kv => replaceAll (placeholderPat kv.1) kv.2 acc)
    template

/-- Python `\w` on the identifiers this code base uses: ASCII alphanumerics
and underscore (`re.findall(r'\{\{(\w+)\}\}', ...)`). -/
def isWordChar (c : Char) : Bool :=
  c.isAlphanum || c = '_'

/-- `TemplateRenderer.extract_variables` (`template_renderer.py` lines
41-64) before the `set(...)` deduplication: the successive matches of the
regex `\{\{(\w+)\}\}`, i.e. the leftmost non-overlapping occurrences of
`"{{"`, a non-empty maximal word-character run, `"}}"`. -/
def extractMatchesGo : Nat → List Char → List (List Char)
  | _, [] => []
  | 0, _ => []
  | _ + 1, [_] => []
  | fuel + 1, c1 :: c2 :: rest =>
    if c1 = '{' ∧ c2 = '{' ∧ rest.takeWhile isWordChar ≠ [] ∧
        ['}', '}'].isPrefixOf (rest.dropWhile isWordChar) then
      rest.takeWhile isWordChar ::
        extractMatchesGo fuel ((rest.dropWhile isWordChar).drop 2)
    else
      extractMatchesGo fuel (c2 :: rest)

/-- `TemplateRenderer.extract_variables` scanning, over the fuel-driven
loop (any fuel at least the string length gives the scan's value).  When
the two-brace opener is found but the run/closer test fails, the regex
engine retries from the next position, i.e. from the second brace — which
is what the `c2 :: rest` recursion does in both non-matching cases. -/
def extractMatches (s : List Char) : List (List Char) :=
  extractMatchesGo s.length s

/-- `TemplateRenderer.extract_variables` including the final
`list(set(matches))` deduplication (the ordering a Python `set` produces is
unspecified; the model keeps first-occurrence order). -/
def extractVariables (s : List Char) : List (List Char) :=
  (extractMatches s).dedup

/-- A legal Python-`\w` placeholder key: non-empty and word characters
only. -/
def WordKey (k : List Char) : Prop :=
  k ≠ [] ∧ ∀ c ∈ k, isWordChar c

/-- A string with no brace characters (so it can neither open nor close a
placeholder). -/
def BraceFree (s : List Char) : Prop :=
  ∀ c ∈ s, c ≠ '{' ∧ c ≠ '}'

instance (k : List Char) : Decidable (WordKey k) := by
  unfold WordKey; infer_instance

instance (s : List Char) : Decidable (BraceFree s) := by
  unfold BraceFree; infer_instance

/-- A parsed template shape: literal text interleaved with `{{key}}`
placeholders.  Used to state what substitution does to a template whose
structure is known. -/
inductive Seg where
  | lit (s : List Char)
  | ph (k : List Char)
  deriving Repr, DecidableEq

/-- The text of one segment. -/
def flattenSeg : Seg → List Char
  | .lit s => s
  | .ph k => placeholderPat k

/-- The template text of a segment list. -/
def flattenSegs (segs : List Seg) : List Char :=
  (segs.map flattenSeg).flatten

/-- Modelled from the spec: the claim's description of `render` — "replaces
every occurrence of each `{{key}}` placeholder whose key is in the map with
the string form of its value, and leaves placeholders whose key is absent
from the map verbatim" — read as a single simultaneous substitution pass
over the template: no substituted value is itself rescanned. -/
def renderOnePassGo (vars : List (List Char × List Char)) :
    Nat → List Char → List Char
  | _, [] => []
  | 0, s => s
  | fuel + 1, c :: rest =>
    match vars.find? fun kv => (placeholderPat kv.1).isPrefixOf (c :: rest) with
    | some kv =>
      kv.2 ++ renderOnePassGo vars fuel
        ((c :: rest).drop (placeholderPat kv.1).length)
    | none => c :: renderOnePassGo vars fuel rest

/-- The one-pass substitution itself, over the fuel-driven loop (any fuel
at least the string length gives the scan's value). -/
def renderOnePass (vars : List (List Char × List Char)) (s : List Char) :
    List Char :=
  renderOnePassGo vars s.length s

/-- The result of substituting one segment under the claim's one-pass
reading: a mapped placeholder becomes its value (first binding wins, as in
a dict), an unmapped placeholder stays verbatim, literal text is kept. -/
def substSeg (vars : List (List Char × List Char)) : Seg → List Char
  | .lit s => s
  | .ph k =>
    match vars.find? fun kv => kv.1 = k with
    | some kv => kv.2
    | none => placeholderPat k

/-! ## Lemmas about the bulk-SMS chunking -/

/-- Unfolding equation for `smsBatches` on a non-empty list. -/
theorem smsBatches_nil {α : Type} : smsBatches ([] : List α) = [] := by
  rw [smsBatches]

/-- Unfolding equation for `smsBatches` on a non-empty list. -/
theorem smsBatches_cons {α : Type} (a : α) (rest : List α) :
    smsBatches (a :: rest) =
      (a :: rest).take batchSize :: smsBatches ((a :: rest).drop batchSize) := by
  rw [smsBatches]

/-- A list of at most `batchSize` recipients forms a single chunk. -/
theorem smsBatches_eq_single {α : Type} (recips : List α)
    (h0 : recips ≠ []) (h : recips.length ≤ batchSize) :
    smsBatches recips = [recips] := by
  match recips, h0 with
  | a :: rest, _ =>
    rw [smsBatches_cons]
    have htake : (a :: rest).take batchSize = a :: rest :=
      List.take_of_length_le h
    have hdrop : (a :: rest).drop batchSize = [] :=
      List.drop_eq_nil_of_le h
    rw [htake, hdrop, smsBatches_nil]

/-- Splitting a list that starts with a full batch peels off that batch. -/
theorem smsBatches_append_batch {α : Type} (l₁ l₂ : List α)
    (h : l₁.length = batchSize) :
    smsBatches (l₁ ++ l₂) = l₁ :: smsBatches l₂ := by
  cases l₁ with
  | nil => rw [List.length_nil] at h; exact absurd h.symm (by decide)
  | cons a rest =>
    rw [List.cons_append, smsBatches_cons, ← List.cons_append, ← h,
      List.take_left, List.drop_left]

/-- Concatenating the chunks gives back the recipient list: nothing is
dropped, duplicated or reordered by the bulk-SMS splitting. -/
theorem smsBatches_flatten {α : Type} (recips : List α) :
    (smsBatches recips).flatten = recips := by
  induction recips using smsBatches.induct with
  | case1 => rw [smsBatches_nil]; rfl
  | case2 a rest ih =>
    rw [smsBatches_cons, List.flatten_cons, ih, List.take_append_drop]

/-- Every chunk produced by the bulk-SMS splitting is non-empty and holds
at most `batchSize` recipients. -/
theorem smsBatches_chunk_size {α : Type} (recips : List α) :
    ∀ c ∈ smsBatches recips, c ≠ [] ∧ c.length ≤ batchSize := by
  induction recips using smsBatches.induct with
  | case1 => intro c hc; rw [smsBatches_nil] at hc; simp at hc
  | case2 a rest ih =>
    intro c hc
    rw [smsBatches_cons] at hc
    rcases List.mem_cons.mp hc with hc2 | hc2
    · subst hc2
      constructor
      · have : batchSize ≠ 0 := by decide
        simp [batchSize]
      · exact List.length_take_le _ _
    · exact ih c hc2

/-- If an element occurs exactly once in the concatenation of a chunk list,
exactly one chunk contains it. -/
theorem filter_mem_length_one {α : Type} [DecidableEq α]
    (chunks : List (List α)) (a : α)
    (h : chunks.flatten.count a = 1) :
    (chunks.filter fun c => a ∈ c).length = 1 := by
  induction chunks with
  | nil => simp at h
  | cons c cs ih =>
    rw [List.flatten_cons, List.count_append] at h
    by_cases hmem : a ∈ c
    · have hc : 1 ≤ c.count a := List.count_pos_iff.mpr hmem
      have hz : cs.flatten.count a = 0 := by omega
      have hempty : (cs.filter fun c => a ∈ c) = [] := by
        rw [List.filter_eq_nil_iff]
        intro c' hc' hmem'
        have : a ∈ cs.flatten := List.mem_flatten.mpr ⟨c', hc', by simpa using hmem'⟩
        rw [List.count_eq_zero] at hz
        exact hz this
      simp [List.filter_cons, hmem, hempty]
    · have hz : c.count a = 0 := List.count_eq_zero.mpr hmem
      have h' : cs.flatten.count a = 1 := by omega
      simp [List.filter_cons, hmem, ih h']

/-- **C5** (confirmed): chunk-boundary behaviour of bulk SMS splitting —
a recipient list of exactly 100 recipients is sent as a single carrier
chunk, and a list of 101 recipients is split into exactly two chunks of
sizes 100 and 1. -/
theorem C5_chunk_boundary (r100 r101 : List String)
    (h100 : r100.length = 100) (h101 : r101.length = 101) :
    smsBatches r100 = [r100] ∧
      (smsBatches r101).map List.length = [100, 1] := by
  constructor
  · apply smsBatches_eq_single
    · intro hnil; rw [hnil] at h100; simp at h100
    · rw [h100]; rfl
  · match r101, h101 with
    | a :: rest, h101 =>
      rw [smsBatches_cons]
      have hdrop : ((a :: rest).drop batchSize).length = 1 := by
        rw [List.length_drop, h101]; rfl
      have hdsingle : smsBatches ((a :: rest).drop batchSize) =
          [(a :: rest).drop batchSize] := by
        apply smsBatches_eq_single
        · intro hnil; rw [hnil] at hdrop; simp at hdrop
        · rw [hdrop]; decide
      rw [hdsingle]
      have htake : ((a :: rest).take batchSize).length = 100 := by
        rw [List.length_take, h101]; rfl
      simp [htake, hdrop]

/-- **C5 witness**: the two boundary facts at concrete 100- and
101-recipient lists. -/
theorem C5_chunk_boundary_witness :
    smsBatches (List.replicate 100 "a") = [List.replicate 100 "a"] ∧
      (smsBatches (List.replicate 100 "a" ++ ["b"])).map List.length =
        [100, 1] :=
  C5_chunk_boundary (List.replicate 100 "a")
    (List.replicate 100 "a" ++ ["b"]) (by decide) (by decide)

/-- **C2 counterexample**: the claim is false for the WhatsApp adapter.
`TermiiWhatsAppProvider.send_bulk_whatsapp` submits only
`to[:batch_size]` in its single carrier call: with 101 recipients the
101st recipient `"b"` is in the request's recipient list but not among
the recipients the carrier is asked to deliver to, and the adapter
reports `total_recipients = 100`, so `"b"` is silently dropped. -/
theorem C2_whatsapp_drops_cex :
    "b" ∈ List.replicate 100 "a" ++ ["b"] ∧
      "b" ∉ whatsappBulkRecipients (List.replicate 100 "a" ++ ["b"]) ∧
      (sendBulkWhatsapp (List.replicate 100 "a" ++ ["b"])
          (.http 200 "ok" (some "m") "") 5).total_recipients = some 100 := by
  refine ⟨by simp, by decide, by decide⟩

/-- **C2 amended**: the SMS adapter partitions the full recipient list into
non-empty chunks of at most 100 such that concatenating the chunks yields
the original list, and (for lists without duplicate addresses) every
recipient appears in exactly one chunk; the WhatsApp bulk adapter instead
issues exactly one carrier call carrying only the first 100 recipients of
the list, dropping the remainder. -/
theorem C2_partition_amended (recips : List String) (hnd : recips.Nodup) :
    (smsBatches recips).flatten = recips ∧
      (∀ c ∈ smsBatches recips, c ≠ [] ∧ c.length ≤ 100) ∧
      (∀ a ∈ recips, ((smsBatches recips).filter fun c => a ∈ c).length = 1) ∧
      (∀ ws : List String, whatsappBulkRecipients ws = ws.take 100) := by
  refine ⟨smsBatches_flatten recips, smsBatches_chunk_size recips, ?_, ?_⟩
  · intro a ha
    apply filter_mem_length_one
    rw [smsBatches_flatten]
    exact List.count_eq_one_of_mem hnd ha
  · intro ws; rfl

/-- **C2 amended witness**: the partition facts at a concrete 3-recipient
list (chunked as one chunk) containing `"x"`. -/
theorem C2_partition_amended_witness :
    (smsBatches ["x", "y", "z"]).flatten = ["x", "y", "z"] ∧
      (∀ c ∈ smsBatches ["x", "y", "z"], c ≠ [] ∧ c.length ≤ 100) ∧
      (∀ a ∈ ["x", "y", "z"],
        ((smsBatches ["x", "y", "z"]).filter fun c => a ∈ c).length = 1) ∧
      (∀ ws : List String, whatsappBulkRecipients ws = ws.take 100) :=
  C2_partition_amended ["x", "y", "z"] (by decide)

/-! ## Service-level batch outcome and logging -/

/-- **C4** (confirmed): when the adapter call raises (`.error e`, e.g. a
timeout), both `send_sms` and `send_whatsapp` catch it at the service
boundary and return a structured result with status `"failed"`,
`successful_count = 0` and `failed_count` equal to the number of
recipients; exactly one `NotificationLog` row (with the same counts, the
exception text as `error_message`, and `completed_at` set) is still
persisted, and the call returns normally instead of propagating the
exception (in the embedding: `sendSMSService`/`sendWhatsappService` are
total functions producing a result in every case). -/
theorem C4_adapter_exception_caught (batchId msg ch e : String)
    (recips : List String) (now : Nat) (rows : List NotificationLog) :
    ((sendSMSService batchId recips msg ch now (.error e)).2.status = "failed" ∧
      (sendSMSService batchId recips msg ch now (.error e)).2.successful_count = 0 ∧
      (sendSMSService batchId recips msg ch now (.error e)).2.failed_count =
        recips.length ∧
      (sendSMSService batchId recips msg ch now (.error e)).1.status = "failed" ∧
      (sendSMSService batchId recips msg ch now (.error e)).1.successful_count = 0 ∧
      (sendSMSService batchId recips msg ch now (.error e)).1.failed_count =
        recips.length ∧
      (sendSMSService batchId recips msg ch now (.error e)).1.error_message =
        some e ∧
      (sendSMSService batchId recips msg ch now (.error e)).1.completed_at =
        some now ∧
      (persistLog rows
          (sendSMSService batchId recips msg ch now (.error e)).1).length =
        rows.length + 1) ∧
    ((sendWhatsappService batchId recips msg now (.error e)).2.status = "failed" ∧
      (sendWhatsappService batchId recips msg now (.error e)).2.successful_count = 0 ∧
      (sendWhatsappService batchId recips msg now (.error e)).2.failed_count =
        recips.length ∧
      (sendWhatsappService batchId recips msg now (.error e)).1.status = "failed" ∧
      (sendWhatsappService batchId recips msg now (.error e)).1.successful_count = 0 ∧
      (sendWhatsappService batchId recips msg now (.error e)).1.failed_count =
        recips.length ∧
      (sendWhatsappService batchId recips msg now (.error e)).1.error_message =
        some e ∧
      (persistLog rows
          (sendWhatsappService batchId recips msg now (.error e)).1).length =
        rows.length + 1) := by
  simp [sendSMSService, sendWhatsappService, persistLog]

/-- The 101-recipient failing input of C3: 100 identical recipients plus a
distinct 101st, whose first chunk is accepted by the carrier and whose
second (1-recipient) chunk's task raises. -/
def c3Recips : List String := List.replicate 100 "+2340000000000" ++ ["+2341111111111"]

/-- The gathered per-chunk task results at the C3 failing input: chunk 1
(100 recipients) succeeds, chunk 2's task raises `"boom"`. -/
def c3Outcomes : List (Except String CarrierReply) :=
  [.ok (.http 200 "ok" (some "mid1") ""), .error "boom"]

/-- **C3** (code bug): at the failing input — a 101-recipient bulk SMS send
whose 100-recipient chunk succeeds and whose 1-recipient chunk raises —
the exception arm of the merge loop adds the constant `batch_size`
(`total_failed += batch_size  # Assume all failed`) instead of the size of
the failed chunk, so the persisted row has `successful_count = 100` and
`failed_count = 100` against `total_recipients = 101`: the claimed (and
spec-stated) invariant `successful_count + failed_count ==
total_recipients` is violated on this completed batch
(`completed_at` is set). -/
theorem C3_invariant_violated_at_101 :
    (smsBatches c3Recips).length = 2 ∧
      ((sendSMSService "b1" c3Recips "Hi" "generic" 7
          (.ok (termiiSendBulkSMS c3Recips c3Outcomes 7))).1.total_recipients =
        101) ∧
      ((sendSMSService "b1" c3Recips "Hi" "generic" 7
          (.ok (termiiSendBulkSMS c3Recips c3Outcomes 7))).1.successful_count =
        100) ∧
      ((sendSMSService "b1" c3Recips "Hi" "generic" 7
          (.ok (termiiSendBulkSMS c3Recips c3Outcomes 7))).1.failed_count =
        100) ∧
      ((sendSMSService "b1" c3Recips "Hi" "generic" 7
          (.ok (termiiSendBulkSMS c3Recips c3Outcomes 7))).1.completed_at ≠
        none) ∧
      ((sendSMSService "b1" c3Recips "Hi" "generic" 7
            (.ok (termiiSendBulkSMS c3Recips c3Outcomes 7))).1.successful_count +
          (sendSMSService "b1" c3Recips "Hi" "generic" 7
            (.ok (termiiSendBulkSMS c3Recips c3Outcomes 7))).1.failed_count ≠
        (sendSMSService "b1" c3Recips "Hi" "generic" 7
          (.ok (termiiSendBulkSMS c3Recips c3Outcomes 7))).1.total_recipients) := by
  have hb : smsBatches c3Recips =
      [List.replicate 100 "+2340000000000", ["+2341111111111"]] := by
    rw [c3Recips, smsBatches_append_batch _ _ (by simp [batchSize]),
      smsBatches_eq_single _ (by simp) (by simp [batchSize])]
  simp only [termiiSendBulkSMS, hb]
  decide

/-- **C1 counterexample**: the three-way status rule is not what any send
operation records.  A two-recipient email send in which exactly the first
recipient's provider call succeeds produces a persisted row with
`successful_count = 1` and `failed_count = 1` but status `"sent"`, not
`"partial"` (`send_email` computes `status = "sent" if successful_count >
0 else "failed"`); likewise a bulk SMS merge with 100 successes and 1
failure is logged with status `"failed"`, not `"partial"`. -/
theorem C1_partial_never_recorded_cex :
    ((sendEmailLog "b1" ["a@x.com", "b@x.com"]
        [.ok { success := true, recipient := "a@x.com", provider := "termii",
               status := "sent", sent_at := some 3 },
         .ok { success := false, recipient := "b@x.com", provider := "termii",
               status := "failed", error := some "bounced" }] 3).successful_count
        = 1) ∧
      ((sendEmailLog "b1" ["a@x.com", "b@x.com"]
        [.ok { success := true, recipient := "a@x.com", provider := "termii",
               status := "sent", sent_at := some 3 },
         .ok { success := false, recipient := "b@x.com", provider := "termii",
               status := "failed", error := some "bounced" }] 3).failed_count
        = 1) ∧
      ((sendEmailLog "b1" ["a@x.com", "b@x.com"]
        [.ok { success := true, recipient := "a@x.com", provider := "termii",
               status := "sent", sent_at := some 3 },
         .ok { success := false, recipient := "b@x.com", provider := "termii",
               status := "failed", error := some "bounced" }] 3).status
        ≠ "partial") ∧
      ((sendSMSService "b1" c3Recips "Hi" "generic" 7
          (.ok (termiiSendBulkSMS c3Recips
            [.ok (.http 200 "ok" (some "mid1") ""),
             .ok (.http 200 "bad" none "rejected")] 7))).1.successful_count
        = 100) ∧
      ((sendSMSService "b1" c3Recips "Hi" "generic" 7
          (.ok (termiiSendBulkSMS c3Recips
            [.ok (.http 200 "ok" (some "mid1") ""),
             .ok (.http 200 "bad" none "rejected")] 7))).1.failed_count
        = 1) ∧
      ((sendSMSService "b1" c3Recips "Hi" "generic" 7
          (.ok (termiiSendBulkSMS c3Recips
            [.ok (.http 200 "ok" (some "mid1") ""),
             .ok (.http 200 "bad" none "rejected")] 7))).1.status
        = "failed") := by
  have hb : smsBatches c3Recips =
      [List.replicate 100 "+2340000000000", ["+2341111111111"]] := by
    rw [c3Recips, smsBatches_append_batch _ _ (by simp [batchSize]),
      smsBatches_eq_single _ (by simp) (by simp [batchSize])]
  simp only [termiiSendBulkSMS, hb]
  decide

/-- **C1 amended**: the recorded batch status is two-valued, never
`"partial"`, on every send path.  An email row's status is `"sent"` iff at
least one per-recipient call succeeded, else `"failed"`.  An SMS or
WhatsApp row logged from an adapter result carries the adapter's binary
status: for the merged bulk-SMS outcome it is `"sent"` iff the merged
counts satisfy `successful_count > 0 ∧ failed_count = 0` and `"failed"`
otherwise (so a mixed outcome is logged as `"failed"`); for a
single-recipient SMS or WhatsApp call and for the truncated bulk-WhatsApp
call it is `"sent"` iff the carrier accepted the call (HTTP 200 with code
`"ok"`) and `"failed"` otherwise; both services' exception branches log
`"failed"`. -/
theorem C1_batch_status_amended (batchId msg ch e r1 : String)
    (recips emailRecips : List String) (now : Nat)
    (results : List (Except String NotificationResponse))
    (outcomes : List (Except String CarrierReply)) (reply : CarrierReply) :
    ((sendEmailLog batchId emailRecips results now).status =
        if emailSuccessfulCount results > 0 then "sent" else "failed") ∧
      ((sendSMSService batchId recips msg ch now
          (.ok (termiiSendBulkSMS recips outcomes now))).1.status =
        if (aggregateBatches
              (((smsBatches recips).zip outcomes).map fun bo =>
                bo.2.map fun rep => sendSingleBatch bo.1 rep now)).totalSuccessful
            > 0 ∧
           (aggregateBatches
              (((smsBatches recips).zip outcomes).map fun bo =>
                bo.2.map fun rep => sendSingleBatch bo.1 rep now)).totalFailed
            = 0
        then "sent" else "failed") ∧
      ((sendSMSService batchId [r1] msg ch now
          (.ok (sendSingleSMS r1 reply now))).1.status =
        if carrierAccepted reply then "sent" else "failed") ∧
      ((sendWhatsappService batchId recips msg now
          (.ok (sendBulkWhatsapp recips reply now))).1.status =
        if carrierAccepted reply then "sent" else "failed") ∧
      ((sendWhatsappService batchId [r1] msg now
          (.ok (sendSingleWhatsapp r1 reply now))).1.status =
        if carrierAccepted reply then "sent" else "failed") ∧
      ((sendSMSService batchId recips msg ch now (.error e)).1.status =
        "failed") ∧
      ((sendWhatsappService batchId recips msg now (.error e)).1.status =
        "failed") ∧
      ((sendEmailLog batchId emailRecips results now).status ≠ "partial" ∧
        (sendSMSService batchId recips msg ch now
          (.ok (termiiSendBulkSMS recips outcomes now))).1.status ≠ "partial" ∧
        (sendSMSService batchId [r1] msg ch now
          (.ok (sendSingleSMS r1 reply now))).1.status ≠ "partial" ∧
        (sendWhatsappService batchId recips msg now
          (.ok (sendBulkWhatsapp recips reply now))).1.status ≠ "partial" ∧
        (sendWhatsappService batchId [r1] msg now
          (.ok (sendSingleWhatsapp r1 reply now))).1.status ≠ "partial" ∧
        (sendSMSService batchId recips msg ch now (.error e)).1.status ≠
          "partial" ∧
        (sendWhatsappService batchId recips msg now (.error e)).1.status ≠
          "partial") := by
  have hsingleSMS : (sendSMSService batchId [r1] msg ch now
      (.ok (sendSingleSMS r1 reply now))).1.status =
      if carrierAccepted reply then "sent" else "failed" := by
    cases reply with
    | http statusCode code messageId errMessage =>
      simp only [sendSMSService, sendSingleSMS, carrierAccepted, statusSent,
        statusFailed]
      split <;> rfl
    | timeout =>
      simp [sendSMSService, sendSingleSMS, carrierAccepted, statusFailed]
    | exc e2 =>
      simp [sendSMSService, sendSingleSMS, carrierAccepted, statusFailed]
  have hbulkWA : (sendWhatsappService batchId recips msg now
      (.ok (sendBulkWhatsapp recips reply now))).1.status =
      if carrierAccepted reply then "sent" else "failed" := by
    cases reply with
    | http statusCode code messageId errMessage =>
      simp only [sendWhatsappService, sendBulkWhatsapp, carrierAccepted,
        statusSent, statusFailed]
      split <;> rfl
    | timeout =>
      simp [sendWhatsappService, sendBulkWhatsapp, carrierAccepted, statusFailed]
    | exc e2 =>
      simp [sendWhatsappService, sendBulkWhatsapp, carrierAccepted, statusFailed]
  have hsingleWA : (sendWhatsappService batchId [r1] msg now
      (.ok (sendSingleWhatsapp r1 reply now))).1.status =
      if carrierAccepted reply then "sent" else "failed" := by
    cases reply with
    | http statusCode code messageId errMessage =>
      simp only [sendWhatsappService, sendSingleWhatsapp, carrierAccepted,
        statusSent, statusFailed]
      split <;> rfl
    | timeout =>
      simp [sendWhatsappService, sendSingleWhatsapp, carrierAccepted,
        statusFailed]
    | exc e2 =>
      simp [sendWhatsappService, sendSingleWhatsapp, carrierAccepted,
        statusFailed]
  have hbulkSMS : (sendSMSService batchId recips msg ch now
      (.ok (termiiSendBulkSMS recips outcomes now))).1.status =
      if (aggregateBatches
            (((smsBatches recips).zip outcomes).map fun bo =>
              bo.2.map fun rep => sendSingleBatch bo.1 rep now)).totalSuccessful
          > 0 ∧
         (aggregateBatches
            (((smsBatches recips).zip outcomes).map fun bo =>
              bo.2.map fun rep => sendSingleBatch bo.1 rep now)).totalFailed
          = 0
      then "sent" else "failed" := by
    simp only [sendSMSService, termiiSendBulkSMS, sendBulkSMS, statusSent,
      statusFailed]
  refine ⟨by simp [sendEmailLog], hbulkSMS, hsingleSMS, hbulkWA, hsingleWA,
    by simp [sendSMSService], by simp [sendWhatsappService],
    ?_, ?_, ?_, ?_, ?_, by simp [sendSMSService], by simp [sendWhatsappService]⟩
  · simp only [sendEmailLog]
    split <;> simp
  · rw [hbulkSMS]
    split <;> simp
  · rw [hsingleSMS]
    split <;> simp
  · rw [hbulkWA]
    split <;> simp
  · rw [hsingleWA]
    split <;> simp

/-- **C8 counterexample**: `sent_at` does not mark a successful dispatch
for SMS rows.  A single-recipient SMS send whose carrier reply is a soft
failure (HTTP 200, code `"R903"`) is logged with `successful_count = 0`
yet a non-null `sent_at` (the service stores `result.sent_at or
datetime.utcnow()` on every non-exception path). -/
theorem C8_sent_at_cex :
    ((sendSMSService "b1" ["+2340000000000"] "Hi" "generic" 9
        (.ok (sendSingleSMS "+2340000000000"
          (.http 200 "R903" none "Insufficient balance") 9))).1.successful_count
      = 0) ∧
      ((sendSMSService "b1" ["+2340000000000"] "Hi" "generic" 9
          (.ok (sendSingleSMS "+2340000000000"
            (.http 200 "R903" none "Insufficient balance") 9))).1.sent_at
        = some 9) := by
  decide

/-- **C8 amended**: only email rows satisfy the claimed equivalence —
`sent_at` is non-null iff `successful_count > 0`.  SMS and WhatsApp rows
written on the non-exception path always carry a non-null `sent_at`
(`result.sent_at or datetime.utcnow()`), even when every recipient
failed; on the exception path `sent_at` is null (with
`successful_count = 0`). -/
theorem C8_sent_at_amended (batchId msg ch e : String)
    (recips emailRecips : List String) (now : Nat)
    (results : List (Except String NotificationResponse))
    (r : NotificationResponse) :
    ((sendEmailLog batchId emailRecips results now).sent_at ≠ none ↔
        0 < (sendEmailLog batchId emailRecips results now).successful_count) ∧
      ((sendSMSService batchId recips msg ch now (.ok r)).1.sent_at ≠ none) ∧
      ((sendWhatsappService batchId recips msg now (.ok r)).1.sent_at ≠ none) ∧
      ((sendSMSService batchId recips msg ch now (.error e)).1.sent_at = none) ∧
      ((sendWhatsappService batchId recips msg now (.error e)).1.sent_at = none) := by
  refine ⟨?_, by simp [sendSMSService], by simp [sendWhatsappService],
    by simp [sendSMSService], by simp [sendWhatsappService]⟩
  simp only [sendEmailLog]
  split <;> simp_all

/-! ## Dict lemmas for the `send_email` variables handling -/

/-- An absent key is not found. -/
theorem dictFind_eq_none {d : List (String × String)} {k : String}
    (h : dictContains d k = false) :
    (d.find? fun kv => kv.1 = k) = none := by
  rw [List.find?_eq_none]
  intro kv hkv hp
  have : dictContains d k = true := by
    unfold dictContains
    rw [List.any_eq_true]
    exact ⟨kv, hkv, hp⟩
  rw [h] at this
  exact absurd this (by simp)

/-- Lookup of a key present in `d` ignores appended bindings. -/
theorem dictGet_append_of_contains (d e : List (String × String)) (k : String)
    (h : dictContains d k = true) : dictGet (d ++ e) k = dictGet d k := by
  unfold dictContains at h
  rw [List.any_eq_true] at h
  obtain ⟨kv, hmem, hp⟩ := h
  have hsome : (d.find? fun kv => kv.1 = k).isSome :=
    List.find?_isSome.mpr ⟨kv, hmem, hp⟩
  unfold dictGet
  rw [List.find?_append]
  cases hfd : d.find? fun kv => kv.1 = k with
  | none => rw [hfd] at hsome; exact absurd hsome (by simp)
  | some y => simp

/-- Lookup of a key absent from `d` falls through to the appended
bindings. -/
theorem dictGet_append_of_not_contains (d e : List (String × String))
    (k : String) (h : dictContains d k = false) :
    dictGet (d ++ e) k = dictGet e k := by
  unfold dictGet
  rw [List.find?_append, dictFind_eq_none h]
  simp

/-- Membership in an appended dict. -/
theorem dictContains_append (d e : List (String × String)) (k : String) :
    dictContains (d ++ e) k = (dictContains d k || dictContains e k) := by
  unfold dictContains
  rw [List.any_append]

/-- Setting an absent key appends it. -/
theorem dictSet_absent (d : List (String × String)) (k v : String)
    (h : dictContains d k = false) : dictSet d k v = d ++ [(k, v)] := by
  unfold dictSet
  rw [h]
  simp

/-- The membership test on a one-binding dict. -/
theorem dictContains_singleton (k2 v k : String) :
    dictContains [(k2, v)] k = decide (k2 = k) := by
  simp [dictContains]

/-- `autofillTelegram` appends the configured link when the key is absent
and the link is truthy. -/
theorem autofillTelegram_pos (vars0 : List (String × String))
    (link : Option String)
    (htl : dictContains vars0 "telegram_link" = false)
    (hpy : pyStrTruthy link = true) :
    autofillTelegram vars0 link = vars0 ++ [("telegram_link", link.getD "")] := by
  unfold autofillTelegram
  rw [if_pos ⟨by simp [htl], hpy⟩, dictSet_absent _ _ _ htl]

/-- `autofillTelegram` is the identity otherwise. -/
theorem autofillTelegram_neg (vars0 : List (String × String))
    (link : Option String)
    (h : ¬ (dictContains vars0 "telegram_link" = false ∧
      pyStrTruthy link = true)) :
    autofillTelegram vars0 link = vars0 := by
  unfold autofillTelegram
  rw [if_neg]
  intro hc
  exact h ⟨by simpa using hc.1, hc.2⟩

/-- `autofillYear` appends the year when the key is absent. -/
theorem autofillYear_pos (v1 : List (String × String)) (year : String)
    (h : dictContains v1 "current_year" = false) :
    autofillYear v1 year = v1 ++ [("current_year", year)] := by
  unfold autofillYear
  rw [if_pos (by simp [h]), dictSet_absent _ _ _ h]

/-- `autofillYear` is the identity when the key is present. -/
theorem autofillYear_neg (v1 : List (String × String)) (year : String)
    (h : dictContains v1 "current_year" = true) :
    autofillYear v1 year = v1 := by
  unfold autofillYear
  rw [if_neg (by simp [h])]

/-- Value of the auto-fill when both standard keys are missing and a link
is configured. -/
theorem autofill_val_both (vars0 : List (String × String))
    (link : Option String) (year : String)
    (htl : dictContains vars0 "telegram_link" = false)
    (hpy : pyStrTruthy link = true)
    (hcy : dictContains vars0 "current_year" = false) :
    autofillVariables vars0 link year =
      vars0 ++ [("telegram_link", link.getD ""), ("current_year", year)] := by
  unfold autofillVariables
  rw [autofillTelegram_pos vars0 link htl hpy, autofillYear_pos _ _
    (by rw [dictContains_append, hcy, dictContains_singleton]; simp),
    List.append_assoc]
  rfl

/-- Value of the auto-fill when no link is configured (or `telegram_link`
is already present) and `current_year` is missing. -/
theorem autofill_val_year_only (vars0 : List (String × String))
    (link : Option String) (year : String)
    (htl : ¬ (dictContains vars0 "telegram_link" = false ∧
      pyStrTruthy link = true))
    (hcy : dictContains vars0 "current_year" = false) :
    autofillVariables vars0 link year = vars0 ++ [("current_year", year)] := by
  unfold autofillVariables
  rw [autofillTelegram_neg vars0 link htl, autofillYear_pos _ _ hcy]

/-- Value of the auto-fill when a link is configured, `telegram_link` is
missing but `current_year` is already present. -/
theorem autofill_val_link_only (vars0 : List (String × String))
    (link : Option String) (year : String)
    (htl : dictContains vars0 "telegram_link" = false)
    (hpy : pyStrTruthy link = true)
    (hcy : dictContains vars0 "current_year" = true) :
    autofillVariables vars0 link year =
      vars0 ++ [("telegram_link", link.getD "")] := by
  unfold autofillVariables
  rw [autofillTelegram_pos vars0 link htl hpy, autofillYear_neg _ _
    (by rw [dictContains_append, hcy]; rfl)]

/-- Value of the auto-fill when nothing is missing. -/
theorem autofill_val_none (vars0 : List (String × String))
    (link : Option String) (year : String)
    (htl : ¬ (dictContains vars0 "telegram_link" = false ∧
      pyStrTruthy link = true))
    (hcy : dictContains vars0 "current_year" = true) :
    autofillVariables vars0 link year = vars0 := by
  unfold autofillVariables
  rw [autofillTelegram_neg vars0 link htl, autofillYear_neg _ _ hcy]

/-- The caller's dict never gains a `convert_name` binding from the
auto-fill. -/
theorem autofill_no_convert_name (vars0 : List (String × String))
    (link : Option String) (year : String)
    (hconv : dictContains vars0 "convert_name" = false) :
    dictContains (autofillVariables vars0 link year) "convert_name" = false := by
  by_cases htl : dictContains vars0 "telegram_link" = false ∧
      pyStrTruthy link = true
  · by_cases hcy : dictContains vars0 "current_year" = false
    · rw [autofill_val_both vars0 link year htl.1 htl.2 hcy,
        dictContains_append, hconv]
      rfl
    · rw [autofill_val_link_only vars0 link year htl.1 htl.2
        (by revert hcy; cases dictContains vars0 "current_year" <;> simp),
        dictContains_append, hconv]
      rfl
  · by_cases hcy : dictContains vars0 "current_year" = false
    · rw [autofill_val_year_only vars0 link year htl hcy,
        dictContains_append, hconv]
      rfl
    · rw [autofill_val_none vars0 link year htl
        (by revert hcy; cases dictContains vars0 "current_year" <;> simp)]
      exact hconv

/-- Present keys keep their values across the auto-fill. -/
theorem autofill_preserves (vars0 : List (String × String))
    (link : Option String) (year k : String)
    (hk : dictContains vars0 k = true) :
    dictGet (autofillVariables vars0 link year) k = dictGet vars0 k := by
  by_cases htl : dictContains vars0 "telegram_link" = false ∧
      pyStrTruthy link = true
  · by_cases hcy : dictContains vars0 "current_year" = false
    · rw [autofill_val_both vars0 link year htl.1 htl.2 hcy,
        dictGet_append_of_contains _ _ _ hk]
    · rw [autofill_val_link_only vars0 link year htl.1 htl.2
        (by revert hcy; cases dictContains vars0 "current_year" <;> simp),
        dictGet_append_of_contains _ _ _ hk]
  · by_cases hcy : dictContains vars0 "current_year" = false
    · rw [autofill_val_year_only vars0 link year htl hcy,
        dictGet_append_of_contains _ _ _ hk]
    · rw [autofill_val_none vars0 link year htl
        (by revert hcy; cases dictContains vars0 "current_year" <;> simp)]

/-- **C10** (confirmed): `send_email` mutates the caller-supplied
`variables` dict in place — after the call the caller's own dictionary is
exactly `autofillVariables` of its previous value: `telegram_link` is
inserted when it was absent and a configured link exists, `current_year`
is inserted when absent, every key the caller had keeps its value, and
`convert_name` is never added to the caller's dictionary — it is added
(with the directory-lookup name or the `"New Believer"` default) only to
the per-recipient copies, which agree with the caller's dictionary on
every other key. -/
theorem C10_variables_mutation (vars0 : List (String × String))
    (link : Option String) (year recipient : String)
    (emailToName : List (String × String))
    (hconv : dictContains vars0 "convert_name" = false) :
    (∀ k, dictContains vars0 k = true →
        dictGet (autofillVariables vars0 link year) k = dictGet vars0 k) ∧
      (dictContains vars0 "telegram_link" = false → pyStrTruthy link = true →
        dictGet (autofillVariables vars0 link year) "telegram_link" =
          some (link.getD "")) ∧
      (dictContains vars0 "current_year" = false →
        dictGet (autofillVariables vars0 link year) "current_year" = some year) ∧
      (dictContains (autofillVariables vars0 link year) "convert_name" = false) ∧
      (dictGet
          (recipientVariables (autofillVariables vars0 link year) emailToName
            recipient) "convert_name" =
        some ((dictGet emailToName recipient).getD "New Believer")) ∧
      (∀ k, k ≠ "convert_name" →
        dictGet
            (recipientVariables (autofillVariables vars0 link year) emailToName
              recipient) k =
          dictGet (autofillVariables vars0 link year) k) := by
  have hnoconv := autofill_no_convert_name vars0 link year hconv
  have hrv : recipientVariables (autofillVariables vars0 link year) emailToName
      recipient =
      autofillVariables vars0 link year ++
        [("convert_name", (dictGet emailToName recipient).getD "New Believer")] := by
    unfold recipientVariables
    rw [if_pos (by simp [hnoconv]), dictSet_absent _ _ _ hnoconv]
  refine ⟨autofill_preserves vars0 link year, ?_, ?_, hnoconv, ?_, ?_⟩
  · intro htl hpy
    by_cases hcy : dictContains vars0 "current_year" = false
    · rw [autofill_val_both vars0 link year htl hpy hcy,
        dictGet_append_of_not_contains _ _ _ htl]
      rfl
    · rw [autofill_val_link_only vars0 link year htl hpy
        (by revert hcy; cases dictContains vars0 "current_year" <;> simp),
        dictGet_append_of_not_contains _ _ _ htl]
      rfl
  · intro hcy
    by_cases htl : dictContains vars0 "telegram_link" = false ∧
        pyStrTruthy link = true
    · rw [autofill_val_both vars0 link year htl.1 htl.2 hcy,
        dictGet_append_of_not_contains _ _ _ hcy]
      rfl
    · rw [autofill_val_year_only vars0 link year htl hcy,
        dictGet_append_of_not_contains _ _ _ hcy]
      rfl
  · rw [hrv, dictGet_append_of_not_contains _ _ _ hnoconv]
    rfl
  · intro k hk
    rw [hrv]
    by_cases hmem : dictContains (autofillVariables vars0 link year) k = true
    · rw [dictGet_append_of_contains _ _ _ hmem]
    · rw [dictGet_append_of_not_contains _ _ _
        (by revert hmem; cases dictContains (autofillVariables vars0 link year) k <;> simp)]
      have h2 : dictGet (autofillVariables vars0 link year) k = none := by
        unfold dictGet
        rw [dictFind_eq_none
          (by revert hmem; cases dictContains (autofillVariables vars0 link year) k <;> simp)]
        rfl
      rw [h2]
      simp [dictGet, List.find?, hk, Ne.symm hk]

/-- **C10 witness**: the frame facts at a concrete caller dictionary
`{"event": "Retreat"}`, a configured link, year `"2025"` and a directory
containing the recipient. -/
theorem C10_variables_mutation_witness :
    ((∀ k, dictContains [("event", "Retreat")] k = true →
        dictGet (autofillVariables [("event", "Retreat")] (some "t.me/x") "2025") k =
          dictGet [("event", "Retreat")] k) ∧
      (dictContains [("event", "Retreat")] "telegram_link" = false →
        pyStrTruthy (some "t.me/x") = true →
        dictGet (autofillVariables [("event", "Retreat")] (some "t.me/x") "2025")
            "telegram_link" = some ((some "t.me/x").getD "")) ∧
      (dictContains [("event", "Retreat")] "current_year" = false →
        dictGet (autofillVariables [("event", "Retreat")] (some "t.me/x") "2025")
            "current_year" = some "2025") ∧
      (dictContains (autofillVariables [("event", "Retreat")] (some "t.me/x") "2025")
          "convert_name" = false) ∧
      (dictGet
          (recipientVariables
            (autofillVariables [("event", "Retreat")] (some "t.me/x") "2025")
            [("ada@x.com", "Ada")] "ada@x.com") "convert_name" =
        some ((dictGet [("ada@x.com", "Ada")] "ada@x.com").getD "New Believer")) ∧
      (∀ k, k ≠ "convert_name" →
        dictGet
            (recipientVariables
              (autofillVariables [("event", "Retreat")] (some "t.me/x") "2025")
              [("ada@x.com", "Ada")] "ada@x.com") k =
          dictGet (autofillVariables [("event", "Retreat")] (some "t.me/x") "2025") k)) :=
  C10_variables_mutation [("event", "Retreat")] (some "t.me/x") "2025"
    "ada@x.com" [("ada@x.com", "Ada")] (by decide)

/-! ## Bounded-concurrency claim for the email fan-out -/

/-- **C9 counterexample**: no concurrency gate exists in the `send_email`
fan-out (`emailFanoutGate = none`), so with 51 recipients the schedule in
which all 51 gathered tasks issue their carrier calls before any response
arrives is admissible, and it reaches 51 simultaneously in-flight carrier
calls — exceeding the claimed bound of 50. -/
theorem C9_no_gate_cex :
    AdmissibleSchedule 51 emailFanoutGate
        ((List.range 51).map FanoutEvent.start) ∧
      ((List.range 51).map FanoutEvent.start) ∈
        ((List.range 51).map FanoutEvent.start).inits ∧
      inFlightAfter ((List.range 51).map FanoutEvent.start) = 51 ∧
      ¬ (51 ≤ 50) := by
  refine ⟨by decide, by decide, by decide, by decide⟩

/-- **C9 amended**: the `send_email` fan-out has no concurrency gate
(`asyncio.gather` over one task per recipient, no semaphore), so the only
bound on simultaneously in-flight carrier calls is the recipient count
itself: every admissible schedule for `n` recipients stays at or below
`n` in-flight calls, and `n` simultaneous in-flight calls are reachable
for every `n` — excess tasks do not queue behind any gate. -/
theorem C9_fanout_unbounded (n : Nat) (tr : List FanoutEvent)
    (hadm : AdmissibleSchedule n emailFanoutGate tr) :
    (∀ pre ∈ tr.inits, inFlightAfter pre ≤ n) ∧
      (∃ tr2, AdmissibleSchedule n emailFanoutGate tr2 ∧
        inFlightAfter tr2 = n) := by
  obtain ⟨hnd, hlt, _hfin, _hgate⟩ := hadm
  constructor
  · intro pre hpre
    rw [List.mem_inits] at hpre
    have hsub : List.Sublist (startsOf pre) (startsOf tr) :=
      (hpre.filterMap _).sublist
    have hsubset : startsOf tr ⊆ List.range n := by
      intro i hi
      exact List.mem_range.mpr (hlt i hi)
    have hlen : (startsOf tr).length ≤ n := by
      have := (hnd.subperm hsubset).length_le
      simpa using this
    calc inFlightAfter pre ≤ (startsOf pre).length := Nat.sub_le _ _
      _ ≤ (startsOf tr).length := hsub.length_le
      _ ≤ n := hlen
  · refine ⟨(List.range n).map FanoutEvent.start, ?_, ?_⟩
    · have hs : startsOf ((List.range n).map FanoutEvent.start) = List.range n := by
        unfold startsOf
        rw [List.filterMap_map]
        exact List.filterMap_some _
      have hf : ∀ pre ∈ ((List.range n).map FanoutEvent.start).inits,
          finishesOf pre = [] := by
        intro pre hpre
        rw [List.mem_inits] at hpre
        have hsub : List.Sublist (finishesOf pre)
            (finishesOf ((List.range n).map FanoutEvent.start)) :=
          (hpre.filterMap _).sublist
        have : finishesOf ((List.range n).map FanoutEvent.start) = [] := by
          unfold finishesOf
          rw [List.filterMap_map]
          simp [Function.comp]
        rw [this] at hsub
        exact List.sublist_nil.mp hsub
      refine ⟨?_, ?_, ?_, ?_⟩
      · rw [hs]; exact List.nodup_range n
      · intro i hi; rw [hs] at hi; exact List.mem_range.mp hi
      · intro pre hpre
        rw [hf pre hpre]
        exact Nat.zero_le _
      · intro pre _ c hc
        exact absurd hc (by simp [emailFanoutGate])
    · unfold inFlightAfter
      have hs : startsOf ((List.range n).map FanoutEvent.start) = List.range n := by
        unfold startsOf
        rw [List.filterMap_map]
        exact List.filterMap_some _
      have hfin : finishesOf ((List.range n).map FanoutEvent.start) = [] := by
        unfold finishesOf
        rw [List.filterMap_map]
        simp [Function.comp]
      rw [hs, hfin]
      simp

/-- **C9 amended witness**: the bound and its attainment at the
all-starts-first schedule for three recipients. -/
theorem C9_fanout_unbounded_witness :
    (∀ pre ∈ ((List.range 3).map FanoutEvent.start).inits,
        inFlightAfter pre ≤ 3) ∧
      (∃ tr2, AdmissibleSchedule 3 emailFanoutGate tr2 ∧
        inFlightAfter tr2 = 3) :=
  C9_fanout_unbounded 3 ((List.range 3).map FanoutEvent.start) (by decide)

/-! ## Renderer lemmas -/

/-- Word characters are not braces. -/
theorem word_ne_brace {c : Char} (h : isWordChar c = true) :
    c ≠ '{' ∧ c ≠ '}' := by
  constructor <;> rintro rfl <;> exact absurd h (by decide)

/-- The scan's value does not depend on the fuel, as long as the fuel
covers the string length. -/
theorem replaceAllGo_congr (pat repl : List Char) :
    ∀ f1 f2 s, s.length ≤ f1 → s.length ≤ f2 →
      replaceAllGo pat repl f1 s = replaceAllGo pat repl f2 s := by
  intro f1
  induction f1 with
  | zero =>
    intro f2 s h1 _
    have hs : s = [] := List.length_eq_zero.mp (Nat.le_zero.mp h1)
    subst hs
    cases f2 <;> rfl
  | succ f ih =>
    intro f2 s h1 h2
    cases s with
    | nil => cases f2 <;> rfl
    | cons c rest =>
      cases f2 with
      | zero => simp at h2
      | succ f2' =>
        show (if pat ≠ [] ∧ pat.isPrefixOf (c :: rest) = true then
            repl ++ replaceAllGo pat repl f ((c :: rest).drop pat.length)
          else c :: replaceAllGo pat repl f rest) =
          (if pat ≠ [] ∧ pat.isPrefixOf (c :: rest) = true then
            repl ++ replaceAllGo pat repl f2' ((c :: rest).drop pat.length)
          else c :: replaceAllGo pat repl f2' rest)
        by_cases h : pat ≠ [] ∧ pat.isPrefixOf (c :: rest) = true
        · rw [if_pos h, if_pos h]
          congr 1
          have hpos : 0 < pat.length := List.length_pos.mpr h.1
          apply ih
          · simp only [List.length_drop, List.length_cons] at h1 ⊢
            omega
          · simp only [List.length_drop, List.length_cons] at h2 ⊢
            omega
        · rw [if_neg h, if_neg h]
          congr 1
          apply ih
          · simp only [List.length_cons] at h1; omega
          · simp only [List.length_cons] at h2; omega

/-- `replaceAll` on the empty string. -/
theorem replaceAll_nil (pat repl : List Char) : replaceAll pat repl [] = [] :=
  rfl

/-- `replaceAll` when the pattern matches at the front. -/
theorem replaceAll_cons_pos {pat : List Char} (repl : List Char) {c : Char}
    {rest : List Char} (h : pat ≠ [] ∧ pat.isPrefixOf (c :: rest) = true) :
    replaceAll pat repl (c :: rest) =
      repl ++ replaceAll pat repl ((c :: rest).drop pat.length) := by
  unfold replaceAll
  rw [List.length_cons]
  show (if pat ≠ [] ∧ pat.isPrefixOf (c :: rest) = true then
      repl ++ replaceAllGo pat repl rest.length ((c :: rest).drop pat.length)
    else c :: replaceAllGo pat repl rest.length rest) = _
  rw [if_pos h]
  congr 1
  apply replaceAllGo_congr
  · have hpos : 0 < pat.length := List.length_pos.mpr h.1
    simp only [List.length_drop, List.length_cons]
    omega
  · exact Nat.le_refl _

/-- `replaceAll` when the pattern does not match at the front. -/
theorem replaceAll_cons_neg {pat : List Char} (repl : List Char) {c : Char}
    {rest : List Char} (h : ¬ (pat ≠ [] ∧ pat.isPrefixOf (c :: rest) = true)) :
    replaceAll pat repl (c :: rest) = c :: replaceAll pat repl rest := by
  unfold replaceAll
  rw [List.length_cons]
  show (if pat ≠ [] ∧ pat.isPrefixOf (c :: rest) = true then
      repl ++ replaceAllGo pat repl rest.length ((c :: rest).drop pat.length)
    else c :: replaceAllGo pat repl rest.length rest) = _
  rw [if_neg h]

/-- A pattern opening with `'{'` walks over any brace-free stretch of
text unchanged. -/
theorem replaceAll_skip_front (p repl : List Char) :
    ∀ (s t : List Char), (∀ c ∈ s, c ≠ '{') →
      replaceAll ('{' :: p) repl (s ++ t) = s ++ replaceAll ('{' :: p) repl t := by
  intro s
  induction s with
  | nil => intro t _; simp
  | cons c s' ih =>
    intro t hs
    have hc : c ≠ '{' := hs c (List.mem_cons_self c s')
    rw [List.cons_append, replaceAll_cons_neg repl ?hneg,
      ih t fun d hd => hs d (List.mem_cons_of_mem c hd), List.cons_append]
    case hneg =>
      rintro ⟨-, hpre⟩
      rw [List.isPrefixOf_iff_prefix, List.cons_prefix_cons] at hpre
      exact hc hpre.1.symm

/-- `replaceAll_skip_front` specialised to a placeholder pattern. -/
theorem replaceAll_pat_skip_front (k v : List Char) (s t : List Char)
    (hs : ∀ c ∈ s, c ≠ '{') :
    replaceAll (placeholderPat k) v (s ++ t) =
      s ++ replaceAll (placeholderPat k) v t :=
  replaceAll_skip_front ('{' :: (k ++ ['}', '}'])) v s t hs

/-- Two distinct word keys never produce one placeholder pattern as a
prefix of the other's placeholder followed by arbitrary text. -/
theorem key_pat_not_prefix :
    ∀ (j k : List Char), WordKey j → WordKey k → j ≠ k → ∀ t : List Char,
      ¬ (k ++ ['}', '}']) <+: (j ++ '}' :: '}' :: t) := by
  intro j
  induction j with
  | nil => intro k hj _ _ _ _; exact hj.1 rfl
  | cons a j' ih =>
    intro k hj hk hne t hpre
    cases k with
    | nil => exact hk.1 rfl
    | cons b k' =>
      rw [List.cons_append, List.cons_append, List.cons_prefix_cons] at hpre
      obtain ⟨hba, hpre2⟩ := hpre
      subst hba
      cases hj' : j' with
      | nil =>
        subst hj'
        cases k' with
        | nil => exact hne rfl
        | cons c k'' =>
          rw [List.nil_append, List.cons_append, List.cons_prefix_cons] at hpre2
          exact (word_ne_brace (hk.2 c (by simp))).2 hpre2.1
      | cons c j'' =>
        subst hj'
        cases k' with
        | nil =>
          rw [List.nil_append, List.cons_append, List.cons_prefix_cons] at hpre2
          exact (word_ne_brace (hj.2 c (by simp))).2 hpre2.1.symm
        | cons d k'' =>
          refine ih (d :: k'') ⟨by simp, ?_⟩ ⟨by simp, ?_⟩ ?_ t hpre2
          · intro x hx; exact hj.2 x (List.mem_cons_of_mem _ hx)
          · intro x hx; exact hk.2 x (List.mem_cons_of_mem _ hx)
          · intro he; exact hne (by rw [he])

/-- The placeholder of key `k` is not a prefix of the placeholder of a
different word key `j` (followed by anything). -/
theorem ph_pat_not_prefix {j k : List Char} (hj : WordKey j) (hk : WordKey k)
    (hne : j ≠ k) (t : List Char) :
    ¬ (placeholderPat k).isPrefixOf (placeholderPat j ++ t) = true := by
  intro hpre
  rw [List.isPrefixOf_iff_prefix] at hpre
  unfold placeholderPat at hpre
  rw [List.cons_append, List.cons_append, List.cons_prefix_cons] at hpre
  obtain ⟨-, hpre⟩ := hpre
  rw [List.cons_prefix_cons] at hpre
  obtain ⟨-, hpre⟩ := hpre
  rw [List.append_assoc] at hpre
  exact key_pat_not_prefix j k hj hk hne t hpre

/-- Replacement of key `k` walks over the intact placeholder of a
different word key. -/
theorem replaceAll_ph_skip {j k : List Char} (hj : WordKey j) (hk : WordKey k)
    (hne : j ≠ k) (v t : List Char) :
    replaceAll (placeholderPat k) v (placeholderPat j ++ t) =
      placeholderPat j ++ replaceAll (placeholderPat k) v t := by
  obtain ⟨a, j', rfl⟩ : ∃ a j', j = a :: j' := by
    cases j with
    | nil => exact absurd rfl hj.1
    | cons a j' => exact ⟨a, j', rfl⟩
  have hword : ∀ c ∈ (a :: j'), c ≠ '{' := fun c hc =>
    (word_ne_brace (hj.2 c hc)).1
  have h1 : ¬ ((placeholderPat k) ≠ [] ∧
      (placeholderPat k).isPrefixOf
        ('{' :: ('{' :: ((a :: j') ++ (['}', '}'] ++ t)))) = true) := by
    rintro ⟨-, hp⟩
    apply ph_pat_not_prefix hj hk hne t
    have he : placeholderPat (a :: j') ++ t =
        '{' :: ('{' :: ((a :: j') ++ (['}', '}'] ++ t))) := by
      simp [placeholderPat]
    rw [he]
    exact hp
  have h2 : ¬ ((placeholderPat k) ≠ [] ∧
      (placeholderPat k).isPrefixOf
        ('{' :: ((a :: j') ++ (['}', '}'] ++ t))) = true) := by
    rintro ⟨-, hp⟩
    rw [List.isPrefixOf_iff_prefix] at hp
    unfold placeholderPat at hp
    rw [List.cons_prefix_cons] at hp
    obtain ⟨-, hp⟩ := hp
    rw [List.cons_append, List.cons_prefix_cons] at hp
    exact (word_ne_brace (hj.2 a (List.mem_cons_self a j'))).1 hp.1.symm
  calc replaceAll (placeholderPat k) v (placeholderPat (a :: j') ++ t)
      = replaceAll (placeholderPat k) v
          ('{' :: ('{' :: ((a :: j') ++ (['}', '}'] ++ t)))) := by
        simp [placeholderPat]
    _ = '{' :: replaceAll (placeholderPat k) v
          ('{' :: ((a :: j') ++ (['}', '}'] ++ t))) :=
        replaceAll_cons_neg v h1
    _ = '{' :: ('{' :: replaceAll (placeholderPat k) v
          ((a :: j') ++ (['}', '}'] ++ t))) := by
        rw [replaceAll_cons_neg v h2]
    _ = '{' :: ('{' :: ((a :: j') ++ replaceAll (placeholderPat k) v
          (['}', '}'] ++ t))) := by
        rw [replaceAll_pat_skip_front k v _ _ hword]
    _ = '{' :: ('{' :: ((a :: j') ++ ('}' :: ('}' :: replaceAll
          (placeholderPat k) v t)))) := by
        rw [replaceAll_pat_skip_front k v ['}', '}'] t (by decide)]
        rfl
    _ = placeholderPat (a :: j') ++ replaceAll (placeholderPat k) v t := by
        simp [placeholderPat]

/-- Replacement of key `k` substitutes its own placeholder and continues
after it. -/
theorem replaceAll_ph_self (k v t : List Char) :
    replaceAll (placeholderPat k) v (placeholderPat k ++ t) =
      v ++ replaceAll (placeholderPat k) v t := by
  have hpre : (placeholderPat k).isPrefixOf (placeholderPat k ++ t) = true := by
    rw [List.isPrefixOf_iff_prefix]
    exact List.prefix_append _ _
  have step : replaceAll (placeholderPat k) v (placeholderPat k ++ t) =
      v ++ replaceAll (placeholderPat k) v
        ((placeholderPat k ++ t).drop (placeholderPat k).length) :=
    replaceAll_cons_pos v ⟨by simp [placeholderPat], hpre⟩
  rw [step, List.drop_left]

/-- The effect of one `str.replace` pass on a parsed segment: the matching
placeholder becomes literal replacement text, everything else is kept. -/
def replaceSegK (k v : List Char) : Seg → Seg
  | .lit s => .lit s
  | .ph j => if j = k then .lit v else .ph j

/-- One `str.replace` pass over a flattened segment list acts segmentwise:
it turns exactly the placeholders of the replaced word key into literal
text, provided literals are brace-free and placeholder keys are word
keys. -/
theorem replace_flatten (k v : List Char) (hk : WordKey k) :
    ∀ segs : List Seg, (∀ s, Seg.lit s ∈ segs → BraceFree s) →
      (∀ j, Seg.ph j ∈ segs → WordKey j) →
      replaceAll (placeholderPat k) v (flattenSegs segs) =
        flattenSegs (segs.map (replaceSegK k v)) := by
  intro segs
  induction segs with
  | nil =>
    intro _ _
    simp [flattenSegs, replaceAll_nil]
  | cons seg rest ih =>
    intro hlit hph
    have hstep : flattenSegs (seg :: rest) =
        flattenSeg seg ++ flattenSegs rest := by
      simp [flattenSegs]
    have ih' := ih (fun s hs => hlit s (List.mem_cons_of_mem seg hs))
      (fun j hj => hph j (List.mem_cons_of_mem seg hj))
    rw [hstep]
    cases seg with
    | lit s =>
      have hbf : BraceFree s := hlit s (List.mem_cons_self _ _)
      rw [show flattenSeg (Seg.lit s) = s from rfl,
        replaceAll_pat_skip_front k v s _ (fun c hc => (hbf c hc).1), ih']
      simp [flattenSegs, replaceSegK, flattenSeg]
    | ph j =>
      by_cases hjk : j = k
      · subst hjk
        rw [show flattenSeg (Seg.ph j) = placeholderPat j from rfl,
          replaceAll_ph_self, ih']
        simp [flattenSegs, replaceSegK, flattenSeg]
      · rw [show flattenSeg (Seg.ph j) = placeholderPat j from rfl,
          replaceAll_ph_skip (hph j (List.mem_cons_self _ _)) hk hjk, ih']
        simp [flattenSegs, replaceSegK, flattenSeg, hjk]

/-- The fold of `str.replace` passes over segment lists, segmentwise. -/
theorem foldl_replaceSegK_lit (vars : List (List Char × List Char))
    (s : List Char) :
    vars.foldl (fun sg kv => replaceSegK kv.1 kv.2 sg) (Seg.lit s) =
      Seg.lit s := by
  induction vars with
  | nil => rfl
  | cons kv vs ih => simpa [replaceSegK] using ih

/-- The fold of `str.replace` passes on a placeholder: the first binding
of the key (if any) wins. -/
theorem foldl_replaceSegK_ph (vars : List (List Char × List Char))
    (k : List Char) :
    vars.foldl (fun sg kv => replaceSegK kv.1 kv.2 sg) (Seg.ph k) =
      match vars.find? fun kv => kv.1 = k with
      | some kv => Seg.lit kv.2
      | none => Seg.ph k := by
  induction vars with
  | nil => rfl
  | cons kv vs ih =>
    by_cases hk : kv.1 = k
    · rw [List.foldl_cons,
        show replaceSegK kv.1 kv.2 (Seg.ph k) = Seg.lit kv.2 by
          simp [replaceSegK, hk],
        foldl_replaceSegK_lit]
      rw [List.find?_cons_of_pos _ (by simp [hk])]
    · rw [List.foldl_cons,
        show replaceSegK kv.1 kv.2 (Seg.ph k) = Seg.ph k by
          simp [replaceSegK, Ne.symm hk],
        ih]
      rw [List.find?_cons_of_neg _ (by simp [hk])]

/-- Folding map-steps over a list is a single map of per-element folds. -/
theorem foldl_map_seg (vars : List (List Char × List Char)) :
    ∀ segs : List Seg,
      vars.foldl (fun sgs kv => sgs.map (replaceSegK kv.1 kv.2)) segs =
        segs.map fun sg => vars.foldl (fun s kv => replaceSegK kv.1 kv.2 s) sg := by
  induction vars with
  | nil => intro segs; simp
  | cons kv vs ih =>
    intro segs
    rw [List.foldl_cons, ih (segs.map (replaceSegK kv.1 kv.2)), List.map_map]
    rfl

/-- A template that flattens to the empty string consists of empty
literals only. -/
theorem flattenSegs_nil_all_lit (segs : List Seg)
    (h : flattenSegs segs = []) : ∀ seg ∈ segs, seg = Seg.lit [] := by
  induction segs with
  | nil => intro seg hs; exact absurd hs (by simp)
  | cons seg rest ih =>
    have hstep : flattenSeg seg ++ flattenSegs rest = [] := by
      simpa [flattenSegs] using h
    rw [List.append_eq_nil] at hstep
    intro sg hsg
    rcases List.mem_cons.mp hsg with h1 | h1
    · subst h1
      cases sg with
      | lit s =>
        have hs : s = [] := hstep.1
        rw [hs]
      | ph k => exact absurd hstep.1 (by simp [flattenSeg, placeholderPat])
    · exact ih hstep.2 sg h1

/-- The render fold over a flattened segment list, as segmentwise
substitution. -/
theorem render_flatten_core (vars : List (List Char × List Char)) :
    ∀ segs : List Seg,
      (∀ kv ∈ vars, WordKey kv.1) → (∀ kv ∈ vars, BraceFree kv.2) →
      (∀ s, Seg.lit s ∈ segs → BraceFree s) →
      (∀ j, Seg.ph j ∈ segs → WordKey j) →
      vars.foldl (fun acc kv => replaceAll (placeholderPat kv.1) kv.2 acc)
          (flattenSegs segs) =
        flattenSegs
          (vars.foldl (fun sgs kv => sgs.map (replaceSegK kv.1 kv.2)) segs) := by
  induction vars with
  | nil => intro segs _ _ _ _; rfl
  | cons kv vs ih =>
    intro segs hkeys hvals hlit hph
    rw [List.foldl_cons, List.foldl_cons,
      replace_flatten kv.1 kv.2 (hkeys kv (List.mem_cons_self _ _)) segs hlit hph]
    apply ih
    · intro kv2 h2; exact hkeys kv2 (List.mem_cons_of_mem _ h2)
    · intro kv2 h2; exact hvals kv2 (List.mem_cons_of_mem _ h2)
    · intro s hs
      rw [List.mem_map] at hs
      obtain ⟨seg, hseg, hrep⟩ := hs
      cases seg with
      | lit s0 =>
        rw [show replaceSegK kv.1 kv.2 (Seg.lit s0) = Seg.lit s0 from rfl] at hrep
        injection hrep with he
        exact he ▸ hlit s0 hseg
      | ph j =>
        by_cases hjk : j = kv.1
        · rw [show replaceSegK kv.1 kv.2 (Seg.ph j) = Seg.lit kv.2 by
            simp [replaceSegK, hjk]] at hrep
          injection hrep with he
          exact he ▸ hvals kv (List.mem_cons_self _ _)
        · rw [show replaceSegK kv.1 kv.2 (Seg.ph j) = Seg.ph j by
            simp [replaceSegK, hjk]] at hrep
          exact absurd hrep (by simp)
    · intro j hj
      rw [List.mem_map] at hj
      obtain ⟨seg, hseg, hrep⟩ := hj
      cases seg with
      | lit s0 =>
        rw [show replaceSegK kv.1 kv.2 (Seg.lit s0) = Seg.lit s0 from rfl] at hrep
        exact absurd hrep (by simp)
      | ph j0 =>
        by_cases hjk : j0 = kv.1
        · rw [show replaceSegK kv.1 kv.2 (Seg.ph j0) = Seg.lit kv.2 by
            simp [replaceSegK, hjk]] at hrep
          exact absurd hrep (by simp)
        · rw [show replaceSegK kv.1 kv.2 (Seg.ph j0) = Seg.ph j0 by
            simp [replaceSegK, hjk]] at hrep
          injection hrep with he
          exact he ▸ hph j0 hseg

/-- **C6 counterexample**: `render` is not the claimed simultaneous
substitution.  With template `"{{a}}"` and variables
`{"a": "{{b}}", "b": "X"}`, the sequential `str.replace` loop substitutes
the already-substituted value a second time and returns `"X"`, while the
claim's reading — replace each template placeholder with its value, leave
the rest verbatim — yields `"{{b}}"`. -/
theorem C6_sequential_substitution_cex :
    render "{{a}}".data [("a".data, "{{b}}".data), ("b".data, "X".data)] =
        "X".data ∧
      renderOnePass [("a".data, "{{b}}".data), ("b".data, "X".data)]
          "{{a}}".data = "{{b}}".data ∧
      render "{{a}}".data [("a".data, "{{b}}".data), ("b".data, "X".data)] ≠
        renderOnePass [("a".data, "{{b}}".data), ("b".data, "X".data)]
          "{{a}}".data := by
  decide

/-- **C6 amended**: on templates made of brace-free literal text and
`{{key}}` placeholders with word-character keys, and for variable maps
whose keys are word identifiers and whose values contain no braces,
`render` is exactly the claimed substitution: every placeholder whose key
is in the map becomes the mapped value (first binding wins), every
placeholder whose key is absent stays verbatim, and no error is possible
(`render` is total).  Without the brace-freeness restriction sequential
replacement can re-substitute inside substituted values (see the
counterexample). -/
theorem C6_render_substitution_amended (segs : List Seg)
    (vars : List (List Char × List Char))
    (hkeys : ∀ kv ∈ vars, WordKey kv.1)
    (hvals : ∀ kv ∈ vars, BraceFree kv.2)
    (hlit : ∀ s, Seg.lit s ∈ segs → BraceFree s)
    (hph : ∀ j, Seg.ph j ∈ segs → WordKey j) :
    render (flattenSegs segs) vars = (segs.map (substSeg vars)).flatten := by
  unfold render
  by_cases h0 : flattenSegs segs = []
  · rw [if_pos h0]
    symm
    have hall := flattenSegs_nil_all_lit segs h0
    rw [List.flatten_eq_nil_iff]
    intro x hx
    rw [List.mem_map] at hx
    obtain ⟨seg, hseg, rfl⟩ := hx
    rw [hall seg hseg]
    rfl
  · rw [if_neg h0, render_flatten_core vars segs hkeys hvals hlit hph,
      foldl_map_seg]
    unfold flattenSegs
    rw [List.map_map]
    apply congrArg
    apply List.map_congr_left
    intro seg hseg
    cases seg with
    | lit s =>
      show flattenSeg
        (vars.foldl (fun s kv => replaceSegK kv.1 kv.2 s) (Seg.lit s)) = _
      rw [foldl_replaceSegK_lit]
      rfl
    | ph k =>
      show flattenSeg
        (vars.foldl (fun s kv => replaceSegK kv.1 kv.2 s) (Seg.ph k)) = _
      rw [foldl_replaceSegK_ph]
      cases h : vars.find? fun kv => kv.1 = k with
      | some kv => simp [substSeg, h, flattenSeg]
      | none => simp [substSeg, h, flattenSeg]

/-- **C6 amended witness**: Scenario D through the amended theorem — the
template `"Hello {{name}}, today is {{day}}"` with variables
`{"name": "Ada"}` renders to `"Hello Ada, today is {{day}}"`, the
unresolved `{{day}}` left verbatim. -/
theorem C6_render_substitution_amended_witness :
    render
        (flattenSegs
          [Seg.lit "Hello ".data, Seg.ph "name".data,
           Seg.lit ", today is ".data, Seg.ph "day".data])
        [("name".data, "Ada".data)] =
      ([Seg.lit "Hello ".data, Seg.ph "name".data,
        Seg.lit ", today is ".data, Seg.ph "day".data].map
          (substSeg [("name".data, "Ada".data)])).flatten ∧
      render
          (flattenSegs
            [Seg.lit "Hello ".data, Seg.ph "name".data,
             Seg.lit ", today is ".data, Seg.ph "day".data])
          [("name".data, "Ada".data)] =
        "Hello Ada, today is {{day}}".data ∧
      flattenSegs
          [Seg.lit "Hello ".data, Seg.ph "name".data,
           Seg.lit ", today is ".data, Seg.ph "day".data] =
        "Hello {{name}}, today is {{day}}".data := by
  refine ⟨C6_render_substitution_amended _ _ (by decide) (by decide)
    ?_ ?_, by decide, by decide⟩
  · intro s hs
    simp only [List.mem_cons, List.not_mem_nil, or_false] at hs
    rcases hs with h | h | h | h <;> first
      | (injection h with h2; subst h2; decide)
      | exact absurd h (by simp)
  · intro j hj
    simp only [List.mem_cons, List.not_mem_nil, or_false] at hj
    rcases hj with h | h | h | h <;> first
      | (injection h with h2; subst h2; decide)
      | exact absurd h (by simp)

/-! ## Idempotence of rendering -/

/-- The extraction scan's value does not depend on the fuel, as long as
the fuel covers the string length. -/
theorem extractMatchesGo_congr :
    ∀ f1 f2 s, s.length ≤ f1 → s.length ≤ f2 →
      extractMatchesGo f1 s = extractMatchesGo f2 s := by
  intro f1
  induction f1 with
  | zero =>
    intro f2 s h1 _
    have hs : s = [] := List.length_eq_zero.mp (Nat.le_zero.mp h1)
    subst hs
    cases f2 <;> rfl
  | succ f ih =>
    intro f2 s h1 h2
    match s, h1, h2 with
    | [], _, _ => cases f2 <;> rfl
    | [c], _, h2 =>
      match f2, h2 with
      | f2' + 1, _ => rfl
    | c1 :: c2 :: rest, h1, h2 =>
      match f2, h2 with
      | f2' + 1, h2 =>
        show (if c1 = '{' ∧ c2 = '{' ∧ rest.takeWhile isWordChar ≠ [] ∧
            ['}', '}'].isPrefixOf (rest.dropWhile isWordChar) = true then
            rest.takeWhile isWordChar ::
              extractMatchesGo f ((rest.dropWhile isWordChar).drop 2)
          else extractMatchesGo f (c2 :: rest)) =
          (if c1 = '{' ∧ c2 = '{' ∧ rest.takeWhile isWordChar ≠ [] ∧
            ['}', '}'].isPrefixOf (rest.dropWhile isWordChar) = true then
            rest.takeWhile isWordChar ::
              extractMatchesGo f2' ((rest.dropWhile isWordChar).drop 2)
          else extractMatchesGo f2' (c2 :: rest))
        have hd : ((rest.dropWhile isWordChar).drop 2).length ≤ rest.length := by
          have := (List.dropWhile_sublist (l := rest) isWordChar).length_le
          simp only [List.length_drop]
          omega
        by_cases h : c1 = '{' ∧ c2 = '{' ∧ rest.takeWhile isWordChar ≠ [] ∧
            ['}', '}'].isPrefixOf (rest.dropWhile isWordChar) = true
        · rw [if_pos h, if_pos h]
          congr 1
          apply ih
          · simp only [List.length_cons] at h1; omega
          · simp only [List.length_cons] at h2; omega
        · rw [if_neg h, if_neg h]
          apply ih
          · simp only [List.length_cons] at h1 ⊢; omega
          · simp only [List.length_cons] at h2 ⊢; omega

/-- The scanner on a two-character-or-longer string: match at the front or
retry from the second character. -/
theorem extractMatches_cons2 (c1 c2 : Char) (rest : List Char) :
    extractMatches (c1 :: c2 :: rest) =
      if c1 = '{' ∧ c2 = '{' ∧ rest.takeWhile isWordChar ≠ [] ∧
          ['}', '}'].isPrefixOf (rest.dropWhile isWordChar) = true then
        rest.takeWhile isWordChar ::
          extractMatches ((rest.dropWhile isWordChar).drop 2)
      else extractMatches (c2 :: rest) := by
  unfold extractMatches
  rw [List.length_cons, List.length_cons]
  show (if c1 = '{' ∧ c2 = '{' ∧ rest.takeWhile isWordChar ≠ [] ∧
      ['}', '}'].isPrefixOf (rest.dropWhile isWordChar) = true then
      rest.takeWhile isWordChar ::
        extractMatchesGo (rest.length + 1) ((rest.dropWhile isWordChar).drop 2)
    else extractMatchesGo (rest.length + 1) (c2 :: rest)) = _
  have hd : ((rest.dropWhile isWordChar).drop 2).length ≤ rest.length := by
    have := (List.dropWhile_sublist (l := rest) isWordChar).length_le
    simp only [List.length_drop]
    omega
  by_cases h : c1 = '{' ∧ c2 = '{' ∧ rest.takeWhile isWordChar ≠ [] ∧
      ['}', '}'].isPrefixOf (rest.dropWhile isWordChar) = true
  · rw [if_pos h, if_pos h]
    congr 1
    apply extractMatchesGo_congr
    · omega
    · exact Nat.le_refl _
  · rw [if_neg h, if_neg h]

/-- `takeWhile`/`dropWhile` on a word run followed by a closing brace. -/
theorem takeWhile_word_closer (k : List Char)
    (hw : ∀ c ∈ k, isWordChar c = true) (xs : List Char) :
    (k ++ '}' :: xs).takeWhile isWordChar = k ∧
      (k ++ '}' :: xs).dropWhile isWordChar = '}' :: xs := by
  induction k with
  | nil =>
    constructor
    · rw [List.nil_append, List.takeWhile_cons_of_neg (by decide)]
    · rw [List.nil_append, List.dropWhile_cons_of_neg (by decide)]
  | cons c k' ih =>
    have hc : isWordChar c = true := hw c (List.mem_cons_self _ _)
    obtain ⟨iht, ihd⟩ := ih fun d hd => hw d (List.mem_cons_of_mem _ hd)
    constructor
    · rw [List.cons_append, List.takeWhile_cons_of_pos hc, iht]
    · rw [List.cons_append, List.dropWhile_cons_of_pos hc, ihd]

/-- A string whose scan finds no placeholder contains no `{{k}}`
occurrence for any word key `k`. -/
theorem extract_nil_not_infix (k : List Char) (hk : WordKey k) :
    ∀ s, extractMatches s = [] → ¬ (placeholderPat k <:+: s) := by
  intro s
  induction s with
  | nil =>
    intro _ hinf
    have := hinf.length_le
    simp [placeholderPat] at this
  | cons c1 rest1 ih =>
    intro hex hinf
    cases rest1 with
    | nil =>
      have := hinf.length_le
      simp [placeholderPat] at this
    | cons c2 rest =>
      rw [extractMatches_cons2] at hex
      rcases (List.infix_cons_iff).mp hinf with hpre | htail
      · -- the placeholder starts at the front
        unfold placeholderPat at hpre
        rw [List.cons_prefix_cons] at hpre
        obtain ⟨hc1, hpre⟩ := hpre
        rw [List.cons_prefix_cons] at hpre
        obtain ⟨hc2, hpre⟩ := hpre
        obtain ⟨b, hb⟩ := hpre
        have hb2 : rest = k ++ '}' :: '}' :: b := by
          rw [← hb, List.append_assoc]
          rfl
        obtain ⟨htake, hdrop⟩ :=
          takeWhile_word_closer k hk.2 ('}' :: b)
        rw [hb2] at hex
        rw [if_pos ⟨hc1.symm, hc2.symm, by rw [htake]; exact hk.1, by
          rw [hdrop, List.isPrefixOf_iff_prefix, List.cons_prefix_cons]
          exact ⟨rfl, by rw [List.cons_prefix_cons]; exact ⟨rfl, List.nil_prefix⟩⟩⟩]
          at hex
        exact absurd hex (by simp)
      · -- the placeholder lies in the tail
        by_cases h : c1 = '{' ∧ c2 = '{' ∧ rest.takeWhile isWordChar ≠ [] ∧
            ['}', '}'].isPrefixOf (rest.dropWhile isWordChar) = true
        · rw [if_pos h] at hex
          exact absurd hex (by simp)
        · rw [if_neg h] at hex
          exact ih hex htail

/-- Replacing a pattern that does not occur in a string is the
identity. -/
theorem replaceAll_not_infix (pat repl : List Char) :
    ∀ s, ¬ (pat <:+: s) → replaceAll pat repl s = s := by
  intro s
  induction s with
  | nil => intro _; exact replaceAll_nil pat repl
  | cons c rest ih =>
    intro hinf
    rw [replaceAll_cons_neg repl ?hneg, ih fun h => hinf (List.infix_cons h)]
    case hneg =>
      rintro ⟨-, hpre⟩
      rw [List.isPrefixOf_iff_prefix] at hpre
      exact hinf hpre.isInfix

/-- Folding functions that fix a point leaves it fixed. -/
theorem foldl_fixed {α β : Type} (f : β → α → α) (x : α) :
    ∀ l : List β, (∀ b ∈ l, f b x = x) →
      l.foldl (fun a b => f b a) x = x := by
  intro l
  induction l with
  | nil => intro _; rfl
  | cons b l' ih =>
    intro hfix
    rw [List.foldl_cons, hfix b (List.mem_cons_self _ _),
      ih fun b2 h2 => hfix b2 (List.mem_cons_of_mem _ h2)]

/-- **C7 counterexample**: idempotence fails for variable maps whose keys
are not word identifiers.  With template `"{{a}}"` and variables
`{"b-c": "Y", "a": "{{b-c}}"}`, the first render yields `"{{b-c}}"`,
which contains no extractable placeholder (`-` is not a word character),
yet rendering that output again substitutes `"{{b-c}}"` and yields
`"Y"`. -/
theorem C7_idempotence_cex :
    extractVariables
        (render "{{a}}".data
          [("b-c".data, "Y".data), ("a".data, "{{b-c}}".data)]) = [] ∧
      render "{{a}}".data
          [("b-c".data, "Y".data), ("a".data, "{{b-c}}".data)] =
        "{{b-c}}".data ∧
      render
          (render "{{a}}".data
            [("b-c".data, "Y".data), ("a".data, "{{b-c}}".data)])
          [("b-c".data, "Y".data), ("a".data, "{{b-c}}".data)] =
        "Y".data ∧
      render
          (render "{{a}}".data
            [("b-c".data, "Y".data), ("a".data, "{{b-c}}".data)])
          [("b-c".data, "Y".data), ("a".data, "{{b-c}}".data)] ≠
        render "{{a}}".data
          [("b-c".data, "Y".data), ("a".data, "{{b-c}}".data)] := by
  decide

/-- **C7 amended**: for variable maps whose keys are non-empty
word-character identifiers, rendering is idempotent on its own output
once that output resolves all placeholders: if
`extract_variables(render(t, v))` is empty then
`render(render(t, v), v) = render(t, v)` — in particular no substituted
text is substituted a second time. -/
theorem C7_render_idempotent_amended (t : List Char)
    (vars : List (List Char × List Char))
    (hkeys : ∀ kv ∈ vars, WordKey kv.1)
    (hres : extractVariables (render t vars) = []) :
    render (render t vars) vars = render t vars := by
  have hres2 : extractMatches (render t vars) = [] := by
    unfold extractVariables at hres
    exact (List.dedup_eq_nil _).mp hres
  have hid : ∀ kv ∈ vars,
      replaceAll (placeholderPat kv.1) kv.2 (render t vars) = render t vars := by
    intro kv hkv
    apply replaceAll_not_infix
    exact extract_nil_not_infix kv.1 (hkeys kv hkv) (render t vars) hres2
  conv_lhs => rw [render]
  by_cases h0 : render t vars = []
  · rw [if_pos h0]
    exact h0.symm
  · rw [if_neg h0]
    exact foldl_fixed
      (fun kv acc => replaceAll (placeholderPat kv.1) kv.2 acc)
      (render t vars) vars hid

/-- **C7 amended witness**: idempotence at the concrete fully-resolved
render of `"Hello {{name}}"` with `{"name": "Ada"}`. -/
theorem C7_render_idempotent_amended_witness :
    render (render "Hello {{name}}".data [("name".data, "Ada".data)])
        [("name".data, "Ada".data)] =
      render "Hello {{name}}".data [("name".data, "Ada".data)] :=
  C7_render_idempotent_amended "Hello {{name}}".data
    [("name".data, "Ada".data)]
    (by intro kv hkv; rw [List.mem_singleton] at hkv; subst hkv; decide)
    (by decide)

end Notifications
